import Mathlib

/-!
# Verification of the Supabase backup system

A shallow embedding, in Lean 4, of the pure core of the repository's backup
scripts (`professional-supabase-backup.js` and `backup.js`):

* JavaScript values as they occur in fetched rows (`JSVal`), with JSON trees
  (`Json`) and `Date` objects (`JSDate`) modelled explicitly;
* the type-inference function `inferDataType` of both files;
* data extraction `backupTableData` (exclusion check, row counting, paged
  fetch loop, truncation bookkeeping), parameterised by oracles standing for
  the remote row-range reads;
* table/schema discovery with its fallback tiers;
* the SQL script generators (`generateCompleteRestoreSQL`,
  `generateSchemaOnlySQL`, `generateDataOnlySQL`) and the CSV export,
  rendered down to the exact strings the JavaScript builds.

JavaScript strings are modelled as `List Char`.  JavaScript numbers are
modelled as exact rationals (`ℚ`): the integer/non-integer distinction that
the code observes via `Number.isInteger` is `q.den = 1`; the exact
float-printing algorithm of `Number.prototype.toString` is outside the model
(no claim depends on it), and `jsNumberToString` below is exact on
integer-valued numbers.  JSON numbers are modelled as integers
(`Json.num : Int`), for the same reason.
-/

/-- Shorthand: the character list of a string literal (JS strings are
modelled as `List Char`). -/
def S (s : String) : List Char := s.data

/-! ## Basic string utilities (JS built-ins used by the scripts) -/

/-- `pat.isPrefixOf hay` written out: does `hay` start with `pat`? -/
def startsWith : List Char → List Char → Bool
  | [], _ => true
  | _ :: _, [] => false
  | p :: ps, h :: hs => p = h && startsWith ps hs

/-- JS `hay.includes(pat)`: substring test. -/
def hasSub (hay pat : List Char) : Bool :=
  match hay with
  | [] => startsWith pat []
  | _ :: rest => startsWith pat hay || hasSub rest pat

/-- JS `name.endsWith(suffix)`. -/
def endsWith (hay pat : List Char) : Bool :=
  startsWith pat.reverse hay.reverse

/-- Split `hay` at the leftmost occurrence of `pat` (the position the JS
regex engine reports for a literal match): `some (before, rest)` with
`hay = before ++ rest` and `pat` a prefix of `rest`, or `none`.  Scanning
carries the consumed prefix in reverse, which keeps evaluation
tail-recursive. -/
def findSubAcc (pat : List Char) : List Char → List Char → Option (List Char × List Char)
  | accRev, [] => if startsWith pat [] then some (accRev.reverse, []) else none
  | accRev, c :: rest =>
    if startsWith pat (c :: rest) then some (accRev.reverse, c :: rest)
    else findSubAcc pat (c :: accRev) rest

/-- Leftmost-occurrence split, see `findSubAcc`. -/
def findSub (hay pat : List Char) : Option (List Char × List Char) :=
  findSubAcc pat [] hay

/-- JS `str.split(sep)` for a single-character separator. -/
def splitChar (sep : Char) : List Char → List (List Char)
  | [] => [[]]
  | c :: rest =>
    let r := splitChar sep rest
    if c = sep then [] :: r
    else
      match r with
      | [] => [[c]]
      | seg :: segs => (c :: seg) :: segs

/-- JS `array.pop()` on the result of a `split`: the last segment (the
split of a string is never empty, so the default is irrelevant). -/
def lastSegment (s : List Char) (sep : Char) : List Char :=
  (splitChar sep s).getLastD []

/-- Replace every occurrence of the character `c` by the two-character list
`[c, c]` — the effect of JS `str.replace(/c/g, "cc")`. -/
def doubleCh (c : Char) : List Char → List Char
  | [] => []
  | a :: rest => (if a = c then [c, c] else [a]) ++ doubleCh c rest

/-- Undo `doubleCh c`: collapse each adjacent pair `c, c` into one `c`. -/
def undoubleCh (c : Char) : List Char → List Char
  | [] => []
  | [a] => [a]
  | a :: b :: rest =>
    if a = c ∧ b = c then c :: undoubleCh c rest
    else a :: undoubleCh c (b :: rest)
termination_by l => l.length

/-- The character for a decimal digit. -/
def dChar (d : Nat) : Char := Char.ofNat (48 + d)

/-- The numeric value of a decimal digit character. -/
def dVal (c : Char) : Nat := c.toNat - 48

/-- Is `c` one of `'0'`–`'9'`? -/
def isDigitCh (c : Char) : Bool := '0' ≤ c && c ≤ '9'

/-- Decimal digits of `n`, least significant first; `fuel` bounds the
recursion depth (any `fuel` with `n < 10 ^ fuel` gives the full answer). -/
def digitsRev (fuel n : Nat) : List Char :=
  match fuel with
  | 0 => []
  | f + 1 => if n < 10 then [dChar n] else dChar (n % 10) :: digitsRev f (n / 10)

/-- Decimal digits of a natural number, most significant first
(JS `String(n)` for a non-negative integer). -/
def natToStr (n : Nat) : List Char := (digitsRev (n + 1) n).reverse

/-- JS `String(i)` for an integer. -/
def intToStr (i : Int) : List Char :=
  if i < 0 then '-' :: natToStr i.natAbs else natToStr i.natAbs

theorem natToStr_example : natToStr 1234 = S "1234" := by decide

/-! ## The value model

Values observed in fetched rows: JSON scalars/structures plus the `Date`
and `undefined` cases the scripts test for (`typeof`, `instanceof Date`). -/

mutual
/-- A JSON tree (`Json.num` is an integer: exact float printing is outside
the model, and no claim depends on non-integral JSON numbers).  Arrays and
objects carry their children through the mutual spine types `JsonList` and
`JsonFields`, which keeps all recursion over trees structural. -/
inductive Json where
  | null : Json
  | bool (b : Bool) : Json
  | num (n : Int) : Json
  | str (s : List Char) : Json
  | arr (elems : JsonList) : Json
  | obj (fields : JsonFields) : Json
inductive JsonList where
  | nil : JsonList
  | cons (head : Json) (tail : JsonList) : JsonList
inductive JsonFields where
  | nil : JsonFields
  | cons (key : List Char) (val : Json) (tail : JsonFields) : JsonFields
end

/-- A JS `Date`, by the calendar fields its `toISOString` prints. -/
structure JSDate where
  year : Nat
  month : Nat
  day : Nat
  hour : Nat
  minute : Nat
  second : Nat
  ms : Nat
deriving DecidableEq

/-- Field bounds under which `toISOString`'s fixed-width rendering is
faithful (JS itself throws outside the printable range). -/
def JSDate.valid (d : JSDate) : Prop :=
  d.year < 10000 ∧ d.month < 100 ∧ d.day < 100 ∧ d.hour < 100 ∧
    d.minute < 100 ∧ d.second < 100 ∧ d.ms < 1000

instance (d : JSDate) : Decidable d.valid := by unfold JSDate.valid; infer_instance

/-- Left-pad with `'0'` to width `k`. -/
def padZ (k : Nat) (s : List Char) : List Char :=
  List.replicate (k - s.length) '0' ++ s

/-- `Date.prototype.toISOString`: `YYYY-MM-DDTHH:mm:ss.sssZ`. -/
def JSDate.toISOString (d : JSDate) : List Char :=
  padZ 4 (natToStr d.year) ++ S "-" ++ padZ 2 (natToStr d.month) ++ S "-" ++
    padZ 2 (natToStr d.day) ++ S "T" ++ padZ 2 (natToStr d.hour) ++ S ":" ++
    padZ 2 (natToStr d.minute) ++ S ":" ++ padZ 2 (natToStr d.second) ++
    S "." ++ padZ 3 (natToStr d.ms) ++ S "Z"

/-- A JavaScript value as it occurs in a fetched row. -/
inductive JSVal where
  | null : JSVal
  | undef : JSVal
  | bool (b : Bool) : JSVal
  | num (q : ℚ) : JSVal
  | str (s : List Char) : JSVal
  | date (d : JSDate) : JSVal
  | obj (j : Json) : JSVal

/-- Digits of the fractional part `num/den` (`num < den`), up to `fuel`
digits.  Used only to give non-integral numbers some executable rendering;
the claims never depend on it. -/
def fracDigits : Nat → Nat → Nat → List Char
  | 0, _, _ => []
  | f + 1, num, den =>
    if num = 0 then []
    else dChar (num * 10 / den) :: fracDigits f (num * 10 % den) den

/-- JS `String(x)` for a number; exact on integer-valued numbers (the only
ones the claims evaluate), decimal expansion otherwise. -/
def jsNumberToString (q : ℚ) : List Char :=
  if q.den = 1 then intToStr q.num
  else
    (if q < 0 then S "-" else []) ++ natToStr (q.num.natAbs / q.den) ++
      S "." ++ fracDigits 20 (q.num.natAbs % q.den) q.den

/-! ## Type inference (`inferDataType` in both backup scripts) -/

/-- Is `c` a hexadecimal digit (either case)? -/
def isHexCh (c : Char) : Bool :=
  isDigitCh c || decide ('a' ≤ c ∧ c ≤ 'f') || decide ('A' ≤ c ∧ c ≤ 'F')

/-- The UUID test both scripts apply:
`/^[0-9a-f]{8}-[0-9a-f]{4}-[1-5][0-9a-f]{3}-[89ab][0-9a-f]{3}-[0-9a-f]{12}$/i`.
Note the version digit is restricted to `1`–`5` and the variant digit to
`8/9/a/b`, so this accepts strictly fewer strings than the canonical
8-4-4-4-12 hex form. -/
def uuidVersionedTest (s : List Char) : Bool :=
  s.length = 36 && (List.range 36).all fun i =>
    let c := s.getD i ' '
    if i = 8 ∨ i = 13 ∨ i = 18 ∨ i = 23 then c = '-'
    else if i = 14 then decide ('1' ≤ c ∧ c ≤ '5')
    else if i = 19 then c = '8' || c = '9' || c = 'a' || c = 'b' || c = 'A' || c = 'B'
    else isHexCh c

/-- The canonical 8-4-4-4-12 UUID textual form, as the spec's words
"UUID canonical form" say: hex digits everywhere, dashes at 8/13/18/23.
(Spec-side definition, for comparison with `uuidVersionedTest`.) -/
def specUuidCanonical (s : List Char) : Bool :=
  s.length = 36 && (List.range 36).all fun i =>
    let c := s.getD i ' '
    if i = 8 ∨ i = 13 ∨ i = 18 ∨ i = 23 then c = '-' else isHexCh c

/-- `/^\d{4}-\d{2}-\d{2}$/`. -/
def dateRegexTest (s : List Char) : Bool :=
  s.length = 10 && (List.range 10).all fun i =>
    let c := s.getD i ' '
    if i = 4 ∨ i = 7 then c = '-' else isDigitCh c

/-- `/^\d{2}:\d{2}:\d{2}/` (a prefix match). -/
def timeRegexTest (s : List Char) : Bool :=
  decide (8 ≤ s.length) && (List.range 8).all fun i =>
    let c := s.getD i ' '
    if i = 2 ∨ i = 5 then c = ':' else isDigitCh c

/-- `inferDataType` of `professional-supabase-backup.js` (upper-case type
names).  `dateParseOk` is the oracle for the JS built-in
`!isNaN(Date.parse(value))`, which is host behaviour outside the repo. -/
def inferDataType (dateParseOk : List Char → Bool) : JSVal → List Char
  | .null => S "TEXT"
  | .undef => S "TEXT"
  | .bool _ => S "BOOLEAN"
  | .num q => if q.den = 1 then S "INTEGER" else S "NUMERIC"
  | .str v =>
    if uuidVersionedTest v then S "UUID"
    else if v.contains 'T' && v.contains 'Z' && dateParseOk v then
      S "TIMESTAMP WITH TIME ZONE"
    else if dateRegexTest v then S "DATE"
    else if timeRegexTest v then S "TIME"
    else if 255 < v.length then S "TEXT"
    else S "VARCHAR(255)"
  | .date _ => S "JSONB"
  | .obj _ => S "JSONB"

/-- `inferDataType` of `backup.js` (lower-case type names, plus an extra
email rule: a string containing `@` and `.` is typed `text`). -/
def inferDataTypeJS (dateParseOk : List Char → Bool) : JSVal → List Char
  | .null => S "text"
  | .undef => S "text"
  | .bool _ => S "boolean"
  | .num q => if q.den = 1 then S "integer" else S "numeric"
  | .str v =>
    if uuidVersionedTest v then S "uuid"
    else if v.contains 'T' && v.contains 'Z' && dateParseOk v then
      S "timestamp with time zone"
    else if dateRegexTest v then S "date"
    else if timeRegexTest v then S "time"
    else if v.contains '@' && v.contains '.' then S "text"
    else if 255 < v.length then S "text"
    else S "varchar(255)"
  | .date _ => S "jsonb"
  | .obj _ => S "jsonb"

/-! ## Claim C2: the type-inference table -/

/-- C2 (counterexample): the nil UUID `00000000-0000-0000-0000-000000000000`
is in canonical UUID textual form, yet neither script's `inferDataType`
types it `uuid` — the regex demands a version digit `1`–`5` and a variant
digit `8/9/a/b`, so the string falls through to `VARCHAR(255)`. -/
theorem C2_nilUuid_counterexample :
    specUuidCanonical (S "00000000-0000-0000-0000-000000000000") = true ∧
    inferDataType (fun _ => false)
      (JSVal.str (S "00000000-0000-0000-0000-000000000000")) = S "VARCHAR(255)" ∧
    inferDataType (fun _ => true)
      (JSVal.str (S "00000000-0000-0000-0000-000000000000")) = S "VARCHAR(255)" ∧
    inferDataTypeJS (fun _ => false)
      (JSVal.str (S "00000000-0000-0000-0000-000000000000")) = S "varchar(255)" ∧
    inferDataType (fun _ => false)
      (JSVal.str (S "00000000-0000-0000-0000-000000000000")) ≠ S "UUID" := by
  refine ⟨by decide, by decide, by decide, by decide, by decide⟩

/-- C2 (amended): `inferDataType` is a pure function of its input
implementing, in both scripts, the spec's inference table amended as
follows: the `uuid` case demands version digit `1`–`5` and variant digit
`8/9/a/b` (not every canonical UUID), and `backup.js` additionally types
any remaining string containing both `@` and `.` as `text`.  The oracle
`dp` stands for the JS built-in `Date.parse` succeeding; every case below
holds for every oracle.  The spec's worked examples are included. -/
theorem C2_inferDataType_table :
    ∀ (dp : List Char → Bool) (b : Bool) (q : ℚ) (s : List Char) (j : Json) (d : JSDate),
    inferDataType dp .null = S "TEXT" ∧
    inferDataType dp .undef = S "TEXT" ∧
    inferDataType dp (.bool b) = S "BOOLEAN" ∧
    inferDataType dp (.num q) = (if q.den = 1 then S "INTEGER" else S "NUMERIC") ∧
    inferDataType dp (.obj j) = S "JSONB" ∧
    inferDataType dp (.date d) = S "JSONB" ∧
    (uuidVersionedTest s = true → inferDataType dp (.str s) = S "UUID") ∧
    (uuidVersionedTest s = false →
      (s.contains 'T' && s.contains 'Z' && dp s) = true →
      inferDataType dp (.str s) = S "TIMESTAMP WITH TIME ZONE") ∧
    (uuidVersionedTest s = false →
      (s.contains 'T' && s.contains 'Z' && dp s) = false →
      dateRegexTest s = true → inferDataType dp (.str s) = S "DATE") ∧
    (uuidVersionedTest s = false →
      (s.contains 'T' && s.contains 'Z' && dp s) = false →
      dateRegexTest s = false → timeRegexTest s = true →
      inferDataType dp (.str s) = S "TIME") ∧
    (uuidVersionedTest s = false →
      (s.contains 'T' && s.contains 'Z' && dp s) = false →
      dateRegexTest s = false → timeRegexTest s = false →
      s.length ≤ 255 → inferDataType dp (.str s) = S "VARCHAR(255)") ∧
    (uuidVersionedTest s = false →
      (s.contains 'T' && s.contains 'Z' && dp s) = false →
      dateRegexTest s = false → timeRegexTest s = false →
      255 < s.length → inferDataType dp (.str s) = S "TEXT") ∧
    inferDataType dp (.str (S "550e8400-e29b-41d4-a716-446655440000")) = S "UUID" ∧
    inferDataType dp (.num 42) = S "INTEGER" ∧
    inferDataType dp (.num (157 / 50)) = S "NUMERIC" ∧
    inferDataType dp (.str (S "2024-01-15")) = S "DATE" ∧
    inferDataTypeJS dp .null = S "text" ∧
    inferDataTypeJS dp (.bool b) = S "boolean" ∧
    inferDataTypeJS dp (.num q) = (if q.den = 1 then S "integer" else S "numeric") ∧
    inferDataTypeJS dp (.obj j) = S "jsonb" ∧
    (uuidVersionedTest s = true → inferDataTypeJS dp (.str s) = S "uuid") ∧
    (uuidVersionedTest s = false →
      (s.contains 'T' && s.contains 'Z' && dp s) = false →
      dateRegexTest s = false → timeRegexTest s = false →
      (s.contains '@' && s.contains '.') = true →
      inferDataTypeJS dp (.str s) = S "text") ∧
    (uuidVersionedTest s = false →
      (s.contains 'T' && s.contains 'Z' && dp s) = false →
      dateRegexTest s = false → timeRegexTest s = false →
      (s.contains '@' && s.contains '.') = false →
      s.length ≤ 255 → inferDataTypeJS dp (.str s) = S "varchar(255)") := by
  intro dp b q s j d
  have h550 : uuidVersionedTest (S "550e8400-e29b-41d4-a716-446655440000") = true := by
    decide
  have hdu : uuidVersionedTest (S "2024-01-15") = false := by decide
  have hdT : (S "2024-01-15").contains 'T' = false := by decide
  have hdd : dateRegexTest (S "2024-01-15") = true := by decide
  refine ⟨rfl, rfl, rfl, rfl, rfl, rfl, ?_, ?_, ?_, ?_, ?_, ?_, ?_, ?_, ?_, ?_,
    rfl, rfl, rfl, rfl, ?_, ?_, ?_⟩
  · intro h1; simp only [inferDataType]; rw [h1]; simp
  · intro h1 h2; simp only [inferDataType]; rw [h1, h2]; simp
  · intro h1 h2 h3; simp only [inferDataType]; rw [h1, h2, h3]; simp
  · intro h1 h2 h3 h4; simp only [inferDataType]; rw [h1, h2, h3, h4]; simp
  · intro h1 h2 h3 h4 h5
    simp only [inferDataType]; rw [h1, h2, h3, h4]; simp [Nat.not_lt.mpr h5]
  · intro h1 h2 h3 h4 h5
    simp only [inferDataType]; rw [h1, h2, h3, h4]; simp [h5]
  · simp only [inferDataType]; rw [h550]; simp
  · norm_num [inferDataType]
  · norm_num [inferDataType]
  · have hcond : ((S "2024-01-15").contains 'T' &&
        (S "2024-01-15").contains 'Z' && dp (S "2024-01-15")) = false := by
      rw [hdT]; rfl
    simp only [inferDataType]; rw [hdu, hcond, hdd]; simp
  · intro h1; simp only [inferDataTypeJS]; rw [h1]; simp
  · intro h1 h2 h3 h4 h5
    simp only [inferDataTypeJS]; rw [h1, h2, h3, h4, h5]; simp
  · intro h1 h2 h3 h4 h5 h6
    simp only [inferDataTypeJS]; rw [h1, h2, h3, h4, h5]; simp [Nat.not_lt.mpr h6]

/-- C2 (witness): the amended table theorem applied at concrete inputs,
each hypothesis discharged by evaluation. -/
theorem C2_inferDataType_table_witness :
    inferDataType (fun _ => false)
      (JSVal.str (S "a1b2c3d4-e5f6-1234-8abc-1234567890ab")) = S "UUID" ∧
    inferDataTypeJS (fun _ => false) (JSVal.str (S "me@example.com")) = S "text" := by
  have h1 := C2_inferDataType_table (fun _ => false) true 0
    (S "a1b2c3d4-e5f6-1234-8abc-1234567890ab") Json.null ⟨0, 0, 0, 0, 0, 0, 0⟩
  have h2 := C2_inferDataType_table (fun _ => false) true 0
    (S "me@example.com") Json.null ⟨0, 0, 0, 0, 0, 0, 0⟩
  obtain ⟨-, -, -, -, -, -, hu, -, -, -, -, -, -, -, -, -, -, -, -, -, -, -, -⟩ := h1
  obtain ⟨-, -, -, -, -, -, -, -, -, -, -, -, -, -, -, -, -, -, -, -, -, he, -⟩ := h2
  exact ⟨hu (by decide), he (by decide) (by decide) (by decide) (by decide) (by decide)⟩

/-! ## Data extraction (`backupTableData`)

The extraction logic never inspects row contents, so the row type is a
parameter `ρ`; the remote reads are oracles. -/

/-- The per-run extraction configuration fields `backupTableData` reads. -/
structure ExtractConfig where
  excludeDataTables : List (List Char)
  maxRowsPerTable : Nat

/-- The default `excludeDataTables` list of `BACKUP_CONFIG` (identical in
both scripts). -/
def defaultExcludeDataTables : List (List Char) :=
  [S "auth.users", S "auth.sessions", S "auth.refresh_tokens",
   S "auth.instances", S "auth.audit_log_entries", S "auth.flow_state",
   S "auth.identities", S "storage.objects", S "storage.buckets",
   S "storage.migrations", S "realtime.subscription",
   S "realtime.schema_migrations", S "pgsodium.key", S "vault.secrets"]

/-- The exclusion test of `professional-supabase-backup.js`:
`tableName.includes(excluded.split(".").pop()) || excluded.includes(tableName)`. -/
def excludedCheckPro (ex : List (List Char)) (tableName : List Char) : Bool :=
  ex.any fun excluded =>
    hasSub tableName (lastSegment excluded '.') || hasSub excluded tableName

/-- The exclusion test of `backup.js`:
`tableName.includes(excluded) || excluded.includes(tableName)`. -/
def excludedCheckJS (ex : List (List Char)) (tableName : List Char) : Bool :=
  ex.any fun excluded => hasSub tableName excluded || hasSub excluded tableName

/-- What `backupTableData` stores into `results.data[tableName]`:
the skip marker, a per-table error entry, the empty-table entry, or the
full entry `{data, rowCount: data.length, totalRows, wasLimited}`. -/
inductive TableBackupResult (ρ : Type) where
  | skipped : TableBackupResult ρ
  | error (msg : List Char) : TableBackupResult ρ
  | empty : TableBackupResult ρ
  | full (data : List ρ) (totalRows : Nat) (wasLimited : Bool) : TableBackupResult ρ
deriving DecidableEq

/-- The rows recorded for the table (absent fields read as `[]`). -/
def TableBackupResult.dataOf : TableBackupResult ρ → List ρ
  | .full d _ _ => d
  | _ => []

/-- The recorded `wasLimited` flag (absent on the other entries). -/
def TableBackupResult.wasLimitedOf : TableBackupResult ρ → Bool
  | .full _ _ w => w
  | _ => false

/-- Is the stored entry the error form `{error: …}`? -/
def TableBackupResult.isErrorOf : TableBackupResult ρ → Bool
  | .error _ => true
  | _ => false

/-- The remote reads one table's extraction performs: the exact row count
(`none` when the count request errors or throws), the 1-row probe, and the
inclusive range read `range(from, to)`. -/
structure TableOracle (ρ : Type) where
  countRes : Option Nat
  probe : Except (List Char) (List ρ)
  fetchRange : Nat → Nat → Except (List Char) (List ρ)

/-- The paged fetch loop of `professional-supabase-backup.js`: request
`min(1000, maxRows - fetched)` rows at a time; stop on an error or an empty
page, keeping what was accumulated.  `fuel` bounds iterations (any
`fuel > maxRows - fetched` is enough, as each kept page is non-empty). -/
def fetchChunksPro (fetch : Nat → Nat → Except (List Char) (List ρ)) :
    Nat → Nat → Nat → List ρ → List ρ
  | 0, _, _, acc => acc
  | fuel + 1, maxRows, fetched, acc =>
    if fetched < maxRows then
      let cur := min 1000 (maxRows - fetched)
      match fetch fetched (fetched + cur - 1) with
      | .error _ => acc
      | .ok chunk =>
        if chunk.isEmpty then acc
        else fetchChunksPro fetch fuel maxRows (fetched + chunk.length) (acc ++ chunk)
    else acc

/-- The paged fetch loop of `backup.js`: the window is
`range(fetched, min(fetched + 999, maxRows - 1))`. -/
def fetchChunksJS (fetch : Nat → Nat → Except (List Char) (List ρ)) :
    Nat → Nat → Nat → List ρ → List ρ
  | 0, _, _, acc => acc
  | fuel + 1, maxRows, fetched, acc =>
    if fetched < maxRows then
      match fetch fetched (min (fetched + 999) (maxRows - 1)) with
      | .error _ => acc
      | .ok chunk =>
        if chunk.isEmpty then acc
        else fetchChunksJS fetch fuel maxRows (fetched + chunk.length) (acc ++ chunk)
    else acc

/-- The straight-line rest of `backupTableData` after the exclusion check
(professional script): count, 1-row probe when the count is zero or
unavailable, limit computation, paged fetch, and the stored entry.  The
only `results.errors.push` in the function sits in its outer exception
handler, which no modelled (non-throwing) path reaches; an in-loop page
failure only `console.error`s and `break`s. -/
def backupTableDataBody (cfg : ExtractConfig) (o : TableOracle ρ) : TableBackupResult ρ :=
  let count1 := o.countRes.getD 0
  let run : Nat → TableBackupResult ρ := fun count =>
    let maxRows := min count cfg.maxRowsPerTable
    let allData := fetchChunksPro o.fetchRange (maxRows + 1) maxRows 0 []
    .full allData count (decide (cfg.maxRowsPerTable < count))
  if count1 = 0 then
    match o.probe with
    | .error e => .error e
    | .ok testData => if testData.length = 0 then .empty else run testData.length
  else run count1

/-- `backupTableData` of `professional-supabase-backup.js`. -/
def backupTableData (cfg : ExtractConfig) (tableName : List Char)
    (o : TableOracle ρ) : TableBackupResult ρ :=
  if excludedCheckPro cfg.excludeDataTables tableName then .skipped
  else backupTableDataBody cfg o

/-- The straight-line rest of `backup.js`'s `backupTableData`: same shape,
but the probe reads up to 10 rows and the window formula differs. -/
def backupTableDataBodyJS (cfg : ExtractConfig) (o : TableOracle ρ) : TableBackupResult ρ :=
  let count1 := o.countRes.getD 0
  let run : Nat → TableBackupResult ρ := fun count =>
    let maxRows := min count cfg.maxRowsPerTable
    let allData := fetchChunksJS o.fetchRange (maxRows + 1) maxRows 0 []
    .full allData count (decide (cfg.maxRowsPerTable < count))
  if count1 = 0 then
    match o.probe with
    | .error e => .error e
    | .ok testData => if testData.length = 0 then .empty else run testData.length
  else run count1

/-- `backupTableData` of `backup.js`. -/
def backupTableDataJS (cfg : ExtractConfig) (tableName : List Char)
    (o : TableOracle ρ) : TableBackupResult ρ :=
  if excludedCheckJS cfg.excludeDataTables tableName then .skipped
  else backupTableDataBodyJS cfg o

/-- The oracle of a healthy table holding exactly `rows`: counting,
probing and every range read succeed and answer from `rows`. -/
def honestOracle (rows : List ρ) : TableOracle ρ where
  countRes := some rows.length
  probe := .ok (rows.take 1)
  fetchRange := fun a b => .ok ((rows.drop a).take (b - a + 1))

/-- An oracle that answers honestly for ranges starting below `p` and fails
every later page read. -/
def failAfterOracle (rows : List ρ) (p : Nat) : TableOracle ρ where
  countRes := some rows.length
  probe := .ok (rows.take 1)
  fetchRange := fun a b =>
    if a < p then .ok ((rows.drop a).take (b - a + 1)) else .error (S "fetch failed")

/-! ## Claims C1 / C8 / C9: extraction behaviour -/

theorem fetchChunksPro_honest {ρ : Type} (rows : List ρ) (maxRows : Nat)
    (hmax : maxRows ≤ rows.length) :
    ∀ fuel fetched, fetched ≤ maxRows → maxRows - fetched < fuel →
      fetchChunksPro (fun a b => Except.ok ((rows.drop a).take (b - a + 1)))
        fuel maxRows fetched (rows.take fetched) = rows.take maxRows := by
  intro fuel
  induction fuel with
  | zero => intro fetched _ h; omega
  | succ f ih =>
    intro fetched hle hfuel
    by_cases hlt : fetched < maxRows
    · have hcur1 : 1 ≤ min 1000 (maxRows - fetched) := by omega
      simp only [fetchChunksPro, if_pos hlt]
      set cur := min 1000 (maxRows - fetched) with hcurdef
      have hidx : fetched + cur - 1 - fetched + 1 = cur := by omega
      rw [hidx]
      have hcurle : cur ≤ rows.length - fetched := by omega
      have hlen : ((rows.drop fetched).take cur).length = cur := by
        rw [List.length_take, List.length_drop]; omega
      have hne : ((rows.drop fetched).take cur).isEmpty = false := by
        rcases h : (rows.drop fetched).take cur with - | ⟨x, xs⟩
        · rw [h] at hlen; simp at hlen; omega
        · rfl
      rw [hne]
      simp only [Bool.false_eq_true, if_false, hlen]
      rw [← List.take_add]
      exact ih (fetched + cur) (by omega) (by omega)
    · have : fetched = maxRows := by omega
      subst this
      simp [fetchChunksPro, hlt]

/-- C1: with the row count known and every page read succeeding, the
professional script's extraction returns exactly `min(count, cap)` rows
(the first that many rows of the table) and records `wasLimited` exactly
when `count > cap`; in particular 5000 rows under cap 1000 give 1000 rows
with `wasLimited = true`, and 500 rows under the same cap give 500 rows
with `wasLimited = false`. -/
theorem C1_truncation {ρ : Type} (rows : List ρ) (ex : List (List Char))
    (cap : Nat) (name : List Char) (hexc : excludedCheckPro ex name = false) :
    (backupTableData ⟨ex, cap⟩ name (honestOracle rows)).dataOf
        = rows.take (min rows.length cap) ∧
    (backupTableData ⟨ex, cap⟩ name (honestOracle rows)).dataOf.length
        = min rows.length cap ∧
    (backupTableData ⟨ex, cap⟩ name (honestOracle rows)).wasLimitedOf
        = decide (cap < rows.length) ∧
    (rows.length = 5000 → cap = 1000 →
      (backupTableData ⟨ex, cap⟩ name (honestOracle rows)).dataOf.length = 1000 ∧
      (backupTableData ⟨ex, cap⟩ name (honestOracle rows)).wasLimitedOf = true) ∧
    (rows.length = 500 → cap = 1000 →
      (backupTableData ⟨ex, cap⟩ name (honestOracle rows)).dataOf.length = 500 ∧
      (backupTableData ⟨ex, cap⟩ name (honestOracle rows)).wasLimitedOf = false) := by
  have hdata : (backupTableData ⟨ex, cap⟩ name (honestOracle rows)).dataOf
      = rows.take (min rows.length cap) := by
    rw [backupTableData, if_neg (by simp [hexc])]
    rcases hrows : rows with - | ⟨r0, rest⟩
    · simp [backupTableDataBody, honestOracle, TableBackupResult.dataOf]
    · have hne : rows.length ≠ 0 := by rw [hrows]; simp
      rw [← hrows]
      simp only [backupTableDataBody, honestOracle, Option.getD_some, if_neg hne]
      have hloop := fetchChunksPro_honest rows (min rows.length cap)
        (by omega) (min rows.length cap + 1) 0 (by omega) (by omega)
      simp only [List.take_zero] at hloop
      simp [TableBackupResult.dataOf, hloop]
  have hlen : (backupTableData ⟨ex, cap⟩ name (honestOracle rows)).dataOf.length
      = min rows.length cap := by
    rw [hdata, List.length_take]; omega
  have hlim : (backupTableData ⟨ex, cap⟩ name (honestOracle rows)).wasLimitedOf
      = decide (cap < rows.length) := by
    rw [backupTableData, if_neg (by simp [hexc])]
    rcases hrows : rows with - | ⟨r0, rest⟩
    · simp [backupTableDataBody, honestOracle, TableBackupResult.wasLimitedOf]
    · have hne : rows.length ≠ 0 := by rw [hrows]; simp
      rw [← hrows]
      simp [backupTableDataBody, honestOracle, if_neg hne, TableBackupResult.wasLimitedOf]
  refine ⟨hdata, hlen, hlim, ?_, ?_⟩
  · intro h5 hcap
    constructor
    · rw [hlen, h5, hcap]; omega
    · rw [hlim, h5, hcap]; decide
  · intro h5 hcap
    constructor
    · rw [hlen, h5, hcap]; omega
    · rw [hlim, h5, hcap]; decide

/-- C1 (witness): a concrete 5-row table under cap 3. -/
theorem C1_truncation_witness :
    (backupTableData ⟨[], 3⟩ (S "t") (honestOracle (List.range 5))).dataOf
        = (List.range 5).take (min (List.range 5).length 3) ∧
    (backupTableData ⟨[], 3⟩ (S "t") (honestOracle (List.range 5))).wasLimitedOf
        = decide (3 < (List.range 5).length) :=
  ⟨(C1_truncation (List.range 5) [] 3 (S "t") (by decide)).1,
   (C1_truncation (List.range 5) [] 3 (S "t") (by decide)).2.2.1⟩

theorem fetchChunksPro_failAfter {ρ : Type} (rows : List ρ) (maxRows k : Nat)
    (hmax : maxRows ≤ rows.length) (hk : 1000 * k < maxRows) :
    ∀ fuel j, j ≤ k → k - j < fuel →
      fetchChunksPro (fun a b =>
          if a < 1000 * k then Except.ok ((rows.drop a).take (b - a + 1))
          else Except.error (S "fetch failed"))
        fuel maxRows (1000 * j) (rows.take (1000 * j)) = rows.take (1000 * k) := by
  intro fuel
  induction fuel with
  | zero => intro j _ h; omega
  | succ f ih =>
    intro j hj hfuel
    have hlt : 1000 * j < maxRows := by omega
    simp only [fetchChunksPro, if_pos hlt]
    by_cases hcase : j = k
    · subst hcase
      rw [if_neg (by omega)]
    · have hjk : j < k := by omega
      rw [if_pos (show 1000 * j < 1000 * k by omega)]
      have hcur : min 1000 (maxRows - 1000 * j) = 1000 := by omega
      rw [hcur]
      have hidx : 1000 * j + 1000 - 1 - 1000 * j + 1 = 1000 := by omega
      rw [hidx]
      have hlenok : 1000 * j + 1000 ≤ rows.length := by omega
      have hlen : ((rows.drop (1000 * j)).take 1000).length = 1000 := by
        rw [List.length_take, List.length_drop]; omega
      have hne : ((rows.drop (1000 * j)).take 1000).isEmpty = false := by
        rcases h : (rows.drop (1000 * j)).take 1000 with - | ⟨x, xs⟩
        · rw [h] at hlen; simp at hlen
        · rfl
      simp only [hne, Bool.false_eq_true, if_false, hlen]
      rw [← List.take_add]
      have := ih (j + 1) (by omega) (by omega)
      rw [Nat.mul_add, Nat.mul_one] at this
      exact this

/-- C8 (amended): when the page read starting at row `1000·k` fails midway
through a table (`1000·k < min(count, cap)`), extraction stops but keeps
exactly the `1000·k` rows already fetched — the stored entry is the normal
`{data, rowCount, totalRows, wasLimited}` form holding those rows.  The
failure is **not** recorded as an error: the stored entry is not the error
form (and the only `results.errors.push` in `backupTableData` sits in the
unreached exception handler); the failure is only written to the console. -/
theorem C8_partial_page_failure {ρ : Type} (rows : List ρ) (ex : List (List Char))
    (cap : Nat) (name : List Char) (k : Nat)
    (hexc : excludedCheckPro ex name = false)
    (hk : 1000 * k < min rows.length cap) :
    backupTableData ⟨ex, cap⟩ name (failAfterOracle rows (1000 * k))
        = .full (rows.take (1000 * k)) rows.length (decide (cap < rows.length)) ∧
    (backupTableData ⟨ex, cap⟩ name (failAfterOracle rows (1000 * k))).isErrorOf
        = false := by
  have hne : rows.length ≠ 0 := by omega
  have hmain : backupTableData ⟨ex, cap⟩ name (failAfterOracle rows (1000 * k))
      = .full (rows.take (1000 * k)) rows.length (decide (cap < rows.length)) := by
    rw [backupTableData, if_neg (by simp [hexc])]
    simp only [backupTableDataBody, failAfterOracle, Option.getD_some, if_neg hne]
    have hloop := fetchChunksPro_failAfter rows (min rows.length cap) k
      (by omega) (by omega) (min rows.length cap + 1) 0 (by omega) (by omega)
    rw [Nat.mul_zero, List.take_zero] at hloop
    simp only [hloop]
  exact ⟨hmain, by rw [hmain]; rfl⟩

/-- C8 (counterexample to the recording part of the claim): a concrete
1001-row table whose second page read fails.  The page read the loop issues
at offset 1000 fails, extraction stops with only 1000 of the 1001 rows —
yet the stored entry is the normal full form, not the error form: the
page-read failure is not recorded as an error anywhere in the run state. -/
theorem C8_failure_not_recorded_counterexample :
    (failAfterOracle (List.range 1001) 1000).fetchRange 1000 1000
        = Except.error (S "fetch failed") ∧
    backupTableData ⟨[], 100000⟩ (S "t") (failAfterOracle (List.range 1001) 1000)
        = .full ((List.range 1001).take 1000) 1001 false ∧
    (backupTableData ⟨[], 100000⟩ (S "t")
        (failAfterOracle (List.range 1001) 1000)).isErrorOf = false := by
  have h := C8_partial_page_failure (List.range 1001) [] 100000 (S "t") 1
    (by decide) (by simp)
  rw [Nat.mul_one] at h
  refine ⟨by simp [failAfterOracle], ?_, h.2⟩
  rw [h.1]
  simp

theorem backupTableDataBody_ne_skipped {ρ : Type} (cfg : ExtractConfig)
    (o : TableOracle ρ) : backupTableDataBody cfg o ≠ .skipped := by
  unfold backupTableDataBody
  dsimp only
  split
  · split
    · simp
    · split <;> simp
  · simp

theorem backupTableDataBodyJS_ne_skipped {ρ : Type} (cfg : ExtractConfig)
    (o : TableOracle ρ) : backupTableDataBodyJS cfg o ≠ .skipped := by
  unfold backupTableDataBodyJS
  dsimp only
  split
  · split
    · simp
    · split <;> simp
  · simp

/-- C9 (counterexample): the two scripts' exclusion tests are not the same
predicate, so the claimed rule (skip whenever the bare name contains the
last dot-segment of an entry, or is a substring of an entry) does not
describe `backup.js`.  The bare name `xusersy` contains `users`, the last
dot-segment of the default entry `auth.users` — the claim says its data is
skipped — and `professional-supabase-backup.js` does skip it, but
`backup.js` (which tests against the full entry `auth.users`) extracts it
normally. -/
theorem C9_xusersy_counterexample :
    hasSub (S "xusersy") (lastSegment (S "auth.users") '.') = true ∧
    (S "auth.users") ∈ defaultExcludeDataTables ∧
    excludedCheckPro defaultExcludeDataTables (S "xusersy") = true ∧
    backupTableData ⟨defaultExcludeDataTables, 1000⟩ (S "xusersy")
      (honestOracle ([0] : List Nat)) = .skipped ∧
    excludedCheckJS defaultExcludeDataTables (S "xusersy") = false ∧
    backupTableDataJS ⟨defaultExcludeDataTables, 1000⟩ (S "xusersy")
      (honestOracle ([0] : List Nat)) ≠ .skipped := by
  refine ⟨by decide, by decide, by decide, by decide, by decide, by decide⟩

/-- C9 (amended): data exclusion is a two-way substring test, but the two
scripts differ: the professional script skips a table iff its bare name
contains the last dot-segment of some `excludeDataTables` entry or the bare
name is a substring of some entry, while `backup.js` skips iff the bare
name contains the **full** entry or is a substring of it.  Under the
default exclusion list both scripts skip public tables named `users` and
`user` (the latter being a substring of `auth.users`) even though only the
qualified names are listed. -/
theorem C9_exclusion_semantics :
    ∀ (ex : List (List Char)) (name : List Char) (cap : Nat) {ρ : Type}
      (o : TableOracle ρ),
    (excludedCheckPro ex name = true ↔
      ∃ e ∈ ex, hasSub name (lastSegment e '.') = true ∨ hasSub e name = true) ∧
    (excludedCheckJS ex name = true ↔
      ∃ e ∈ ex, hasSub name e = true ∨ hasSub e name = true) ∧
    (backupTableData ⟨ex, cap⟩ name o = .skipped ↔ excludedCheckPro ex name = true) ∧
    (backupTableDataJS ⟨ex, cap⟩ name o = .skipped ↔ excludedCheckJS ex name = true) ∧
    backupTableData ⟨defaultExcludeDataTables, cap⟩ (S "users") o = .skipped ∧
    backupTableData ⟨defaultExcludeDataTables, cap⟩ (S "user") o = .skipped ∧
    backupTableDataJS ⟨defaultExcludeDataTables, cap⟩ (S "users") o = .skipped ∧
    backupTableDataJS ⟨defaultExcludeDataTables, cap⟩ (S "user") o = .skipped := by
  intro ex name cap ρ o
  refine ⟨?_, ?_, ?_, ?_, ?_, ?_, ?_, ?_⟩
  · simp [excludedCheckPro, List.any_eq_true]
  · simp [excludedCheckJS, List.any_eq_true]
  · by_cases h : excludedCheckPro ex name = true
    · simp [backupTableData, h]
    · simp only [Bool.not_eq_true] at h
      simp [backupTableData, h, backupTableDataBody_ne_skipped]
  · by_cases h : excludedCheckJS ex name = true
    · simp [backupTableDataJS, h]
    · simp only [Bool.not_eq_true] at h
      simp [backupTableDataJS, h, backupTableDataBodyJS_ne_skipped]
  · simp [backupTableData,
      show excludedCheckPro defaultExcludeDataTables (S "users") = true from by decide]
  · simp [backupTableData,
      show excludedCheckPro defaultExcludeDataTables (S "user") = true from by decide]
  · simp [backupTableDataJS,
      show excludedCheckJS defaultExcludeDataTables (S "users") = true from by decide]
  · simp [backupTableDataJS,
      show excludedCheckJS defaultExcludeDataTables (S "user") = true from by decide]

/-- C8 (witness): the amended theorem applied at a concrete input — a
1500-row table whose second page read fails under cap 2000. -/
theorem C8_partial_page_failure_witness :
    backupTableData ⟨[], 2000⟩ (S "w") (failAfterOracle (List.range 1500) 1000)
        = .full ((List.range 1500).take 1000) 1500 false := by
  have h := C8_partial_page_failure (List.range 1500) [] 2000 (S "w") 1
    (by decide) (by simp)
  rw [Nat.mul_one] at h
  rw [h.1]
  simp

/-! ## Discovery (`discoverSchemas`, `discoverTables`, `discoverTablesREST`)

The remote catalog query, the OpenAPI-spec fetch and the per-table access
probes are oracles in the environment. -/

/-- A schema record as `discoverSchemas` produces it. -/
structure SchemaRec where
  schema_name : List Char
  schema_owner : List Char
deriving DecidableEq

/-- `discoverSchemas`: run the catalog query; on success prepend a
`public` record if the result lacks one; on failure fall back to just
`public` and record a warning.  Returns the schema list and the warnings
pushed. -/
def discoverSchemas (qres : Except (List Char) (List SchemaRec)) :
    List SchemaRec × List (List Char) :=
  match qres with
  | .ok schemas =>
    (if schemas.any (fun s => s.schema_name = S "public") then schemas
     else ⟨S "public", S "postgres"⟩ :: schemas, [])
  | .error e =>
    ([⟨S "public", S "postgres"⟩], [S "Schema discovery fallback used: " ++ e])

/-- A table record; the privileged tier's extra statistics fields
(comment, size, tuple counts) do not influence any control flow modelled
here, so records carry the four fields every tier produces. -/
structure TableRec where
  table_schema : List Char
  table_name : List Char
  table_type : List Char
  table_catalog : List Char
deriving DecidableEq

/-- The fixed table-name guesses of discovery "Method 2". -/
def commonTableNames : List (List Char) :=
  [S "users", S "user", S "profiles", S "profile", S "accounts", S "account",
   S "posts", S "post", S "articles", S "article", S "comments", S "comment",
   S "transactions", S "transaction", S "orders", S "order", S "products",
   S "product", S "categories", S "category", S "items", S "item", S "data",
   S "records", S "entries", S "logs", S "events", S "notifications",
   S "settings"]

/-- What the environment offers table discovery: the privileged catalog
query result, the OpenAPI spec's `definitions` keys (`none` when the fetch
fails or the response is not ok), the zero-row access probe, and the
operator's `MANUAL_TABLES` list. -/
structure TableDiscoveryEnv where
  privResult : Except (List Char) (List TableRec)
  specNames : Option (List (List Char))
  probeOk : List Char → Bool
  manualTables : List (List Char)

/-- The record shape every REST-tier table gets. -/
def mkRestTable (n : List Char) : TableRec :=
  ⟨S "public", n, S "BASE TABLE", S "postgres"⟩

/-- Method 1: tables scraped from the OpenAPI spec — every `definitions`
key that does not start with `rpc_` and is not an excluded-schema name. -/
def restSpecTables (excludeSchemas : List (List Char))
    (env : TableDiscoveryEnv) : List TableRec :=
  match env.specNames with
  | none => []
  | some names =>
    (names.filter fun n =>
      !startsWith (S "rpc_") n && !excludeSchemas.contains n).map mkRestTable

/-- Method 2: the common-name guesses that answer a zero-row read. -/
def probedCommonTables (env : TableDiscoveryEnv) : List TableRec :=
  (commonTableNames.filter env.probeOk).map mkRestTable

/-- Method 4: the manually specified tables that answer a zero-row read. -/
def verifiedManualTables (env : TableDiscoveryEnv) : List TableRec :=
  (env.manualTables.filter env.probeOk).map mkRestTable

/-- `discoverTablesREST`: OpenAPI spec scrape, then common-name probing,
then the manual list — each consulted only if the previous method produced
nothing, each returned as-is (Method 3 only logs). -/
def discoverTablesREST (excludeSchemas : List (List Char))
    (env : TableDiscoveryEnv) : List TableRec :=
  if (restSpecTables excludeSchemas env).isEmpty then
    if (probedCommonTables env).isEmpty then
      if (verifiedManualTables env).isEmpty then []
      else verifiedManualTables env
    else probedCommonTables env
  else restSpecTables excludeSchemas env

/-- `discoverTables`: the privileged catalog query; on an empty result or
an error, the REST fallback chain. -/
def discoverTables (excludeSchemas : List (List Char))
    (env : TableDiscoveryEnv) : List TableRec :=
  match env.privResult with
  | .ok tables =>
    if tables.length = 0 then discoverTablesREST excludeSchemas env else tables
  | .error _ => discoverTablesREST excludeSchemas env

/-- The privileged tier's output viewed as a tier (its successful result,
or nothing on failure). -/
def privTierTables (env : TableDiscoveryEnv) : List TableRec :=
  match env.privResult with
  | .ok tables => tables
  | .error _ => []

/-- The first non-empty list in a sequence of tier outputs (and `[]` when
every tier is empty). -/
def firstNonEmptyList {α : Type} : List (List α) → List α
  | [] => []
  | l :: ls => if l.isEmpty then firstNonEmptyList ls else l

/-! ## Claims C6 / C7: discovery fallback behaviour -/

/-- C7: whatever the catalog query returns — success, success without a
`public` entry, or failure — the schema list `discoverSchemas` records
always contains a record named `public`. -/
theorem C7_public_always_present :
    ∀ qres : Except (List Char) (List SchemaRec),
      ∃ r ∈ (discoverSchemas qres).1, r.schema_name = S "public" := by
  intro qres
  match qres with
  | .error e => exact ⟨⟨S "public", S "postgres"⟩, by simp [discoverSchemas]⟩
  | .ok schemas =>
    by_cases h : schemas.any (fun s => s.schema_name = S "public") = true
    · obtain ⟨s, hs, hname⟩ := List.any_eq_true.mp h
      refine ⟨s, ?_, by simpa using hname⟩
      simp only [discoverSchemas, h, if_true]
      exact hs
    · refine ⟨⟨S "public", S "postgres"⟩, ?_, rfl⟩
      simp only [discoverSchemas, Bool.not_eq_true] at h
      rw [discoverSchemas, h]
      simp

/-- C6: table discovery's result is exactly the output of the first tier
(privileged query, OpenAPI spec scrape, common-name probing, manual list)
that yields a non-empty table list — no merging across tiers — and in
particular a non-empty privileged result is returned as-is. -/
theorem C6_first_tier_wins :
    ∀ (excl : List (List Char)) (env : TableDiscoveryEnv),
      discoverTables excl env =
        firstNonEmptyList [privTierTables env, restSpecTables excl env,
          probedCommonTables env, verifiedManualTables env] ∧
      (∀ ts, env.privResult = .ok ts → ts ≠ [] → discoverTables excl env = ts) := by
  intro excl env
  have hrest : discoverTablesREST excl env =
      firstNonEmptyList [restSpecTables excl env, probedCommonTables env,
        verifiedManualTables env] := rfl
  constructor
  · cases hpriv : env.privResult with
    | ok tables =>
      cases tables with
      | nil =>
        simp [discoverTables, hpriv, privTierTables, firstNonEmptyList, hrest]
      | cons t ts =>
        simp [discoverTables, hpriv, privTierTables, firstNonEmptyList]
    | error e =>
      simp [discoverTables, hpriv, privTierTables, firstNonEmptyList, hrest]
  · intro ts hok hne
    have hlen : ts.length ≠ 0 := fun h => hne (List.length_eq_zero.mp h)
    simp [discoverTables, hok, hlen]

/-- C6 (witness): a concrete environment whose privileged query returns one
table; discovery returns exactly it, ignoring a non-empty spec tier. -/
theorem C6_first_tier_wins_witness :
    discoverTables []
      ⟨.ok [⟨S "public", S "users", S "BASE TABLE", S "postgres"⟩],
        some [S "posts"], fun _ => false, []⟩
      = [⟨S "public", S "users", S "BASE TABLE", S "postgres"⟩] :=
  (C6_first_tier_wins []
    ⟨.ok [⟨S "public", S "users", S "BASE TABLE", S "postgres"⟩],
      some [S "posts"], fun _ => false, []⟩).2
    [⟨S "public", S "users", S "BASE TABLE", S "postgres"⟩] rfl (by simp)

/-! ## JSON serialisation (`JSON.stringify`, as the generators call it) -/

/-- The character for a hexadecimal digit (lower case, as
`JSON.stringify`'s control-character escapes print them). -/
def hexCh (n : Nat) : Char := if n < 10 then dChar n else Char.ofNat (87 + n)

/-- `JSON.stringify`'s escaping of one character inside a string literal. -/
def escJsonChar (c : Char) : List Char :=
  if c = '"' then S "\\\""
  else if c = '\\' then S "\\\\"
  else if c = '\x08' then S "\\b"
  else if c = '\x0c' then S "\\f"
  else if c = '\n' then S "\\n"
  else if c = '\r' then S "\\r"
  else if c = '\t' then S "\\t"
  else if c.toNat < 32 then S "\\u00" ++ [hexCh (c.toNat / 16), hexCh (c.toNat % 16)]
  else [c]

/-- `JSON.stringify`'s escaping of a whole string body. -/
def escJsonStr (s : List Char) : List Char := (s.map escJsonChar).flatten

mutual
/-- `JSON.stringify` of a tree (compact form, as the generators call it):
children comma-joined, object keys escaped like string bodies. -/
def jsonStringify : Json → List Char
  | .null => S "null"
  | .bool b => if b then S "true" else S "false"
  | .num n => intToStr n
  | .str s => S "\"" ++ escJsonStr s ++ S "\""
  | .arr es => S "[" ++ jsonListStringify es ++ S "]"
  | .obj fs => S "\x7b" ++ jsonFieldsStringify fs ++ S "\x7d"
def jsonListStringify : JsonList → List Char
  | .nil => []
  | .cons x .nil => jsonStringify x
  | .cons x (.cons y t) => jsonStringify x ++ S "," ++ jsonListStringify (.cons y t)
def jsonFieldsStringify : JsonFields → List Char
  | .nil => []
  | .cons k v .nil => S "\"" ++ escJsonStr k ++ S "\":" ++ jsonStringify v
  | .cons k v (.cons k2 v2 t) =>
    S "\"" ++ escJsonStr k ++ S "\":" ++ jsonStringify v ++ S "," ++
      jsonFieldsStringify (.cons k2 v2 t)
end

/-! ## Value rendering in the generators -/

/-- One INSERT literal, exactly as both generators' inner `map` renders a
value: null/undefined → `NULL`; strings quoted with quotes doubled then
backslashes doubled; booleans as bare `true`/`false`; `Date`s as quoted
ISO strings; other objects as their JSON text with quotes doubled, cast
`::jsonb`; anything else via `String(val)`. -/
def renderSQLValue : JSVal → List Char
  | .null => S "NULL"
  | .undef => S "NULL"
  | .str s => S "'" ++ doubleCh '\\' (doubleCh '\'' s) ++ S "'"
  | .bool b => if b then S "true" else S "false"
  | .date d => S "'" ++ d.toISOString ++ S "'"
  | .obj j => S "'" ++ doubleCh '\'' (jsonStringify j) ++ S "'::jsonb"
  | .num q => jsNumberToString q

/-- `row[col]` rendered for an INSERT: an absent key is `undefined`, hence
the SQL `NULL` literal. -/
def renderSQLOpt : Option JSVal → List Char
  | none => S "NULL"
  | some v => renderSQLValue v

/-- One CSV field, as `saveBackupFiles` renders it: null/undefined/absent →
empty field; strings and objects double-quoted with embedded `"` doubled
(a `Date` is `typeof "object"`, so it goes through `JSON.stringify`, which
wraps its ISO string in JSON quotes); everything else via `String(val)`. -/
def renderCSVValue : Option JSVal → List Char
  | none => []
  | some .null => []
  | some .undef => []
  | some (.str s) => S "\"" ++ doubleCh '"' s ++ S "\""
  | some (.date d) =>
    S "\"" ++ doubleCh '"' (S "\"" ++ d.toISOString ++ S "\"") ++ S "\""
  | some (.obj j) => S "\"" ++ doubleCh '"' (jsonStringify j) ++ S "\""
  | some (.bool b) => if b then S "true" else S "false"
  | some (.num q) => jsNumberToString q

/-- A fetched row: the key/value pairs of the row object, in key order. -/
abbrev Row : Type := List (List Char × JSVal)

/-- JS `row[col]`: the value at key `col`, `none` when absent. -/
def rowGet (row : Row) (k : List Char) : Option JSVal :=
  (row.find? fun p => p.1 = k).map (·.2)

/-! ## The restore-script generator (`generateCompleteRestoreSQL`) -/

/-- The 45-`=` banner line every section header uses. -/
def bannerLine : List Char := S "-- =============================================\n"

/-- A full section banner: banner line, `-- TITLE`, banner line, blank. -/
def sectionBanner (title : List Char) : List Char :=
  bannerLine ++ S "-- " ++ title ++ S "\n" ++ bannerLine ++ S "\n"

/-- JS truthiness of an optional string field (absent and `""` are falsy). -/
def jsTruthyStr : Option (List Char) → Bool
  | none => false
  | some s => !s.isEmpty

/-- JS truthiness of an optional numeric field (absent and `0` are falsy). -/
def jsTruthyNat : Option Nat → Bool
  | none => false
  | some n => n ≠ 0

/-- ASCII `toLowerCase`, as JS applies it to catalog type names. -/
def toLowerStr (s : List Char) : List Char :=
  s.map fun c => if 'A' ≤ c ∧ c ≤ 'Z' then Char.ofNat (c.toNat + 32) else c

/-- ASCII `toUpperCase`. -/
def toUpperStr (s : List Char) : List Char :=
  s.map fun c => if 'a' ≤ c ∧ c ≤ 'z' then Char.ofNat (c.toNat - 32) else c

/-- A column record as `analyzeTableStructures` provides it. -/
structure ColumnRec where
  column_name : List Char
  data_type : Option (List Char)
  udt_name : Option (List Char)
  numeric_precision : Option Nat
  numeric_scale : Option Nat
  character_maximum_length : Option Nat
  is_nullable : List Char
  column_default : Option (List Char)
  column_comment : Option (List Char)

/-- The generator's `switch (col.data_type?.toLowerCase())` type mapping. -/
def mapColumnType (col : ColumnRec) : List Char :=
  let dflt :=
    if jsTruthyStr col.udt_name then toUpperStr (col.udt_name.getD [])
    else if jsTruthyStr col.data_type then toUpperStr (col.data_type.getD [])
    else S "TEXT"
  match col.data_type with
  | none => dflt
  | some raw =>
    let dt := toLowerStr raw
    if dt = S "timestamp with time zone" ∨ dt = S "timestamptz" then
      S "TIMESTAMP WITH TIME ZONE"
    else if dt = S "uuid" then S "UUID"
    else if dt = S "jsonb" then S "JSONB"
    else if dt = S "json" then S "JSON"
    else if dt = S "boolean" then S "BOOLEAN"
    else if dt = S "integer" ∨ dt = S "int4" then S "INTEGER"
    else if dt = S "bigint" ∨ dt = S "int8" then S "BIGINT"
    else if dt = S "numeric" ∨ dt = S "decimal" then
      if jsTruthyNat col.numeric_precision then
        S "NUMERIC(" ++ natToStr (col.numeric_precision.getD 0) ++
          (if jsTruthyNat col.numeric_scale then
            S "," ++ natToStr (col.numeric_scale.getD 0) else []) ++ S ")"
      else S "NUMERIC"
    else if dt = S "date" then S "DATE"
    else if dt = S "time" then S "TIME"
    else if dt = S "character varying" ∨ dt = S "varchar" then
      if jsTruthyNat col.character_maximum_length then
        S "VARCHAR(" ++ natToStr (col.character_maximum_length.getD 0) ++ S ")"
      else S "VARCHAR"
    else if dt = S "text" then S "TEXT"
    else dflt

/-- One column definition line inside `CREATE TABLE`. -/
def columnDef (col : ColumnRec) : List Char :=
  S "  \"" ++ col.column_name ++ S "\" " ++ mapColumnType col ++
    (if col.is_nullable = S "NO" then S " NOT NULL" else []) ++
    (if jsTruthyStr col.column_default then
      S " DEFAULT " ++ col.column_default.getD [] else [])

/-- A table structure record (`tableStructures`). -/
structure TableStructRec where
  table_schema : List Char
  table_name : List Char
  table_comment : Option (List Char)
  columns : List ColumnRec

/-- The per-table block of the TABLES section (empty when the record has
no columns, exactly as the generator skips it). -/
def tableCreateSQL (includeDrop : Bool) (t : TableStructRec) : List Char :=
  if 0 < t.columns.length then
    (if includeDrop then
      S "-- Drop table if exists\nDROP TABLE IF EXISTS \"" ++ t.table_schema ++
        S "\".\"" ++ t.table_name ++ S "\" CASCADE;\n\n"
     else []) ++
    S "-- Table: " ++ t.table_schema ++ S "." ++ t.table_name ++ S "\n" ++
    (if jsTruthyStr t.table_comment then
      S "-- " ++ t.table_comment.getD [] ++ S "\n" else []) ++
    S "CREATE TABLE \"" ++ t.table_schema ++ S "\".\"" ++ t.table_name ++ S "\" (\n" ++
    List.intercalate (S ",\n") (t.columns.map columnDef) ++ S "\n);\n\n" ++
    (t.columns.map fun c =>
      if jsTruthyStr c.column_comment then
        S "COMMENT ON COLUMN \"" ++ t.table_schema ++ S "\".\"" ++ t.table_name ++
          S "\".\"" ++ c.column_name ++ S "\" IS '" ++ c.column_comment.getD [] ++
          S "';\n"
      else []).flatten ++
    (if jsTruthyStr t.table_comment then
      S "COMMENT ON TABLE \"" ++ t.table_schema ++ S "\".\"" ++ t.table_name ++
        S "\" IS '" ++ t.table_comment.getD [] ++ S "';\n"
     else []) ++
    S "\n"
  else []

/-- A view record. -/
structure ViewRec where
  view_schema : List Char
  view_name : List Char
  view_definition : List Char

/-- A function record (`full_definition` is emitted verbatim). -/
structure FuncRec where
  routine_schema : List Char
  routine_name : List Char
  full_definition : List Char

/-- A trigger record. -/
structure TriggerRec where
  trigger_name : List Char
  event_object_schema : List Char
  event_object_table : List Char
  action_timing : List Char
  event_manipulation : List Char
  action_orientation : List Char
  action_condition : Option (List Char)
  action_statement : List Char

/-- An index record (`pg_indexes` row). -/
structure IndexRec where
  indexname : List Char
  indexdef : List Char

/-- A row-level-security policy record (`pg_policies` row). -/
structure PolicyRec where
  schemaname : List Char
  tablename : List Char
  policyname : List Char
  cmd : List Char
  roles : List (List Char)
  qual : Option (List Char)
  with_check : Option (List Char)

/-- An enum record (only its prebuilt `definition` is used). -/
structure EnumRec where
  definition : List Char

/-- A sequence record (values arrive as strings from the catalog query and
are interpolated verbatim). -/
structure SeqRec where
  sequence_schema : List Char
  sequence_name : List Char
  start_value : List Char
  increment : List Char
  minimum_value : List Char
  maximum_value : List Char
  cycle_option : List Char

/-- `toLocaleString()` on a non-negative integer: decimal digits grouped in
threes with commas (the en-US grouping Node prints by default). -/
def insertCommasF : Nat → List Char → List Char
  | 0, l => l
  | f + 1, l =>
    if l.length ≤ 3 then l else l.take 3 ++ ',' :: insertCommasF f (l.drop 3)

/-- `n.toLocaleString()`. -/
def numToLocale (n : Nat) : List Char :=
  ((insertCommasF (natToStr n).length (natToStr n).reverse).reverse)

/-- First-occurrence deduplication, the order `[...new Set(xs)]` yields. -/
def firstDedupF : Nat → List (List Char) → List (List Char)
  | 0, _ => []
  | _ + 1, [] => []
  | f + 1, a :: rest => a :: firstDedupF f (rest.filter fun b => b ≠ a)

/-- `[...new Set(xs)]`. -/
def firstDedup (l : List (List Char)) : List (List Char) := firstDedupF l.length l

/-- Batches of `bs` rows, as `slice(i, i + bs)` over a stepped loop. -/
def chunkListF {α : Type} : Nat → Nat → List α → List (List α)
  | 0, _, _ => []
  | f + 1, bs, l =>
    if l.isEmpty then [] else l.take bs :: chunkListF f bs (l.drop bs)

/-- All batches of a table's rows. -/
def chunkList {α : Type} (bs : Nat) (l : List α) : List (List α) :=
  chunkListF l.length bs l

/-- The rows the generators see in `results.data[table]`: only the full
entry exposes a `data` array (skip/error entries have none, the empty
entry's array has length 0 — all of them fail the emission guard). -/
def emittedRows : TableBackupResult Row → List Row
  | .full rows _ _ => rows
  | _ => []

/-- One rendered INSERT value tuple `  (v1, v2, …)` for `row`, reading
exactly the columns of the first row. -/
def sqlInsertRowVals (columns : List (List Char)) (row : Row) : List Char :=
  S "  (" ++
    List.intercalate (S ", ") (columns.map fun c => renderSQLOpt (rowGet row c)) ++
    S ")"

/-- The per-table block of the DATA section: header comment, then one
INSERT statement per 100-row batch, the column list taken from the first
row's keys. -/
def dataTableChunk (tableName : List Char) (td : TableBackupResult Row) : List Char :=
  match emittedRows td with
  | [] => []
  | r0 :: rest =>
    let rows := r0 :: rest
    let columns := r0.map (·.1)
    S "-- Data for table: " ++ tableName ++ S " (" ++ numToLocale rows.length ++
      S " rows)\n" ++
    ((chunkList 100 rows).map fun batch =>
      S "INSERT INTO \"" ++ tableName ++ S "\" (" ++
        List.intercalate (S ", ") (columns.map fun c => S "\"" ++ c ++ S "\"") ++
        S ") VALUES\n" ++
        List.intercalate (S ",\n") (batch.map (sqlInsertRowVals columns)) ++
        S ";\n\n").flatten

/-- One CSV data line for `row` under the first row's columns. -/
def csvLine (columns : List (List Char)) (row : Row) : List Char :=
  List.intercalate (S ",") (columns.map fun c => renderCSVValue (rowGet row c)) ++
    S "\n"

/-- The CSV file body for one table (empty when there are no rows — the
saver then writes no file): quoted header from the first row's keys, then
one line per row over exactly those columns. -/
def csvForTable (td : TableBackupResult Row) : List Char :=
  match emittedRows td with
  | [] => []
  | r0 :: rest =>
    let rows := r0 :: rest
    let columns := r0.map (·.1)
    List.intercalate (S ",") (columns.map fun c => S "\"" ++ c ++ S "\"") ++
      S "\n" ++ (rows.map (csvLine columns)).flatten

/-- The statistics counters the script footer interpolates. -/
structure RunStats where
  totalTables : Nat
  totalViews : Nat
  totalFunctions : Nat
  totalTriggers : Nat
  totalPolicies : Nat
  totalIndexes : Nat
  totalEnums : Nat
  totalRows : Nat

/-- Everything `generateCompleteRestoreSQL` and its two projections read
from `this.results` and `this.config`. -/
structure RunState where
  timestamp : List Char
  supabaseUrl : List Char
  projectName : List Char
  backupVersion : List Char
  includeDropStatements : Bool
  schemas : List SchemaRec
  enums : List EnumRec
  tableStructures : List TableStructRec
  views : List ViewRec
  functions : List FuncRec
  triggers : List TriggerRec
  indexes : List IndexRec
  policies : List PolicyRec
  data : List (List Char × TableBackupResult Row)
  sequences : List SeqRec
  tables : List TableRec
  stats : RunStats

/-- The opening template: title banner, metadata lines, session preamble
and the three hard-coded extension declarations. -/
def sqlHeader (st : RunState) : List Char :=
  bannerLine ++ S "-- PROFESSIONAL SUPABASE DATABASE RESTORE SCRIPT\n" ++ bannerLine ++
  S "-- Generated: " ++ st.timestamp ++ S "\n-- Source: " ++ st.supabaseUrl ++
  S "\n-- Project: " ++ st.projectName ++ S "\n-- Backup Version: " ++
  st.backupVersion ++
  S "\n-- \n-- This script contains:\n-- ✅ Complete schema with functions, triggers, views\n-- ✅ RLS policies and security settings\n-- ✅ Indexes and constraints\n-- ✅ All data with proper types\n-- ✅ Sequences and auto-increment setup\n" ++
  bannerLine ++
  S "\n-- Preparation\nSET session_replication_role = replica;\nSET client_min_messages = warning;\nBEGIN;\n\n-- Extensions\nCREATE EXTENSION IF NOT EXISTS \"uuid-ossp\";\nCREATE EXTENSION IF NOT EXISTS \"pgcrypto\";\nCREATE EXTENSION IF NOT EXISTS \"pgjwt\";\n\n"

/-- The SCHEMAS section (emitted only when the schema list is non-empty;
`public` itself gets no `CREATE SCHEMA`). -/
def schemasSection (st : RunState) : List Char :=
  if 0 < st.schemas.length then
    sectionBanner (S "SCHEMAS") ++
    (st.schemas.map fun sc =>
      if sc.schema_name ≠ S "public" then
        S "CREATE SCHEMA IF NOT EXISTS \"" ++ sc.schema_name ++ S "\";\n"
      else []).flatten ++
    S "\n"
  else []

/-- The ENUMS section. -/
def enumsSection (st : RunState) : List Char :=
  if 0 < st.enums.length then
    sectionBanner (S "ENUMS") ++ (st.enums.map fun e => e.definition ++ S "\n\n").flatten
  else []

/-- The TABLES section. -/
def tablesSection (st : RunState) : List Char :=
  if 0 < st.tableStructures.length then
    sectionBanner (S "TABLES") ++
      (st.tableStructures.map (tableCreateSQL st.includeDropStatements)).flatten
  else []

/-- The VIEWS section. -/
def viewsSection (st : RunState) : List Char :=
  if 0 < st.views.length then
    sectionBanner (S "VIEWS") ++
      (st.views.map fun v =>
        S "-- View: " ++ v.view_schema ++ S "." ++ v.view_name ++ S "\n" ++
        S "CREATE OR REPLACE VIEW \"" ++ v.view_schema ++ S "\".\"" ++ v.view_name ++
        S "\" AS\n" ++ v.view_definition ++ S ";\n\n").flatten
  else []

/-- The FUNCTIONS section. -/
def functionsSection (st : RunState) : List Char :=
  if 0 < st.functions.length then
    sectionBanner (S "FUNCTIONS") ++
      (st.functions.map fun f =>
        S "-- Function: " ++ f.routine_schema ++ S "." ++ f.routine_name ++ S "\n" ++
        f.full_definition ++ S "\n\n").flatten
  else []

/-- The TRIGGERS section. -/
def triggersSection (st : RunState) : List Char :=
  if 0 < st.triggers.length then
    sectionBanner (S "TRIGGERS") ++
      (st.triggers.map fun t =>
        S "-- Trigger: " ++ t.trigger_name ++ S " on " ++ t.event_object_schema ++
        S "." ++ t.event_object_table ++ S "\n" ++
        S "CREATE TRIGGER \"" ++ t.trigger_name ++ S "\"\n" ++
        S "  " ++ t.action_timing ++ S " " ++ t.event_manipulation ++ S "\n" ++
        S "  ON \"" ++ t.event_object_schema ++ S "\".\"" ++ t.event_object_table ++
        S "\"\n" ++
        S "  FOR EACH " ++ t.action_orientation ++ S "\n" ++
        (if jsTruthyStr t.action_condition then
          S "  WHEN (" ++ t.action_condition.getD [] ++ S ")\n" else []) ++
        S "  " ++ t.action_statement ++ S ";\n\n").flatten
  else []

/-- The INDEXES section: the banner appears whenever the index list is
non-empty, but indexes whose names end in `_pkey` are skipped. -/
def indexesSection (st : RunState) : List Char :=
  if 0 < st.indexes.length then
    sectionBanner (S "INDEXES") ++
      (st.indexes.map fun i =>
        if endsWith i.indexname (S "_pkey") then []
        else S "-- Index: " ++ i.indexname ++ S "\n" ++ i.indexdef ++ S ";\n\n").flatten
  else []

/-- One `ALTER TABLE … ENABLE ROW LEVEL SECURITY` line, from the joined
`schema.table` string the generator splits back apart. -/
def rlsEnableLine (fullName : List Char) : List Char :=
  let parts := splitChar '.' fullName
  S "ALTER TABLE \"" ++ parts.getD 0 (S "undefined") ++ S "\".\"" ++
    parts.getD 1 (S "undefined") ++ S "\" ENABLE ROW LEVEL SECURITY;\n"

/-- One `CREATE POLICY` statement. -/
def policySQL (p : PolicyRec) : List Char :=
  S "-- Policy: " ++ p.policyname ++ S " on " ++ p.schemaname ++ S "." ++
    p.tablename ++ S "\n" ++
  S "CREATE POLICY \"" ++ p.policyname ++ S "\" ON \"" ++ p.schemaname ++
    S "\".\"" ++ p.tablename ++ S "\"\n" ++
  S "  FOR " ++ p.cmd ++ S "\n" ++
  (if 0 < p.roles.length then
    S "  TO " ++ List.intercalate (S ", ") p.roles ++ S "\n" else []) ++
  (if jsTruthyStr p.qual ∧ p.qual.getD [] ≠ S "true" then
    S "  USING (" ++ p.qual.getD [] ++ S ")\n"
   else S "  USING (true)\n") ++
  (if jsTruthyStr p.with_check then
    S "  WITH CHECK (" ++ p.with_check.getD [] ++ S ")\n" else []) ++
  S ";\n\n"

/-- The ROW LEVEL SECURITY section: one ENABLE line per distinct
`(schema, table)` pair (in first-occurrence order), then the policies. -/
def rlsSection (st : RunState) : List Char :=
  if 0 < st.policies.length then
    sectionBanner (S "ROW LEVEL SECURITY") ++
    ((firstDedup (st.policies.map fun p =>
        p.schemaname ++ S "." ++ p.tablename)).map rlsEnableLine).flatten ++
    S "\n" ++
    (st.policies.map policySQL).flatten
  else []

/-- The DATA section of the complete script: emitted whenever
`results.data` has at least one key (even if every entry is a skip or an
error), with per-table INSERT blocks only for entries holding rows. -/
def dataSection (st : RunState) : List Char :=
  if 0 < st.data.length then
    sectionBanner (S "DATA") ++
      (st.data.map fun kv => dataTableChunk kv.1 kv.2).flatten
  else []

/-- The SEQUENCES section. -/
def sequencesSection (st : RunState) : List Char :=
  if 0 < st.sequences.length then
    sectionBanner (S "SEQUENCES") ++
      (st.sequences.map fun sq =>
        S "-- Sequence: " ++ sq.sequence_schema ++ S "." ++ sq.sequence_name ++
        S "\n" ++
        S "CREATE SEQUENCE IF NOT EXISTS \"" ++ sq.sequence_schema ++ S "\".\"" ++
        sq.sequence_name ++ S "\"\n" ++
        S "  START WITH " ++ sq.start_value ++ S "\n" ++
        S "  INCREMENT BY " ++ sq.increment ++ S "\n" ++
        S "  MINVALUE " ++ sq.minimum_value ++ S "\n" ++
        S "  MAXVALUE " ++ sq.maximum_value ++ S "\n" ++
        S "  " ++ (if sq.cycle_option = S "YES" then S "CYCLE" else S "NO CYCLE") ++
        S ";\n\n").flatten
  else []

/-- The text of the FINALIZATION section after its banner: session reset,
one ANALYZE per discovered table, COMMIT, and the statistics footer. -/
def finalizationTail (st : RunState) : List Char :=
  S "\n-- Reset session\nSET session_replication_role = DEFAULT;\n\n-- Analyze tables for better performance\n" ++
  (st.tables.map fun t =>
    S "ANALYZE \"" ++ t.table_schema ++ S "\".\"" ++ t.table_name ++ S "\";\n").flatten ++
  S "\nCOMMIT;\n\n" ++
  bannerLine ++ S "-- RESTORE COMPLETED\n" ++ bannerLine ++
  S "-- Database: " ++ st.projectName ++
  S "\n-- Tables: " ++ natToStr st.stats.totalTables ++
  S "\n-- Views: " ++ natToStr st.stats.totalViews ++
  S "\n-- Functions: " ++ natToStr st.stats.totalFunctions ++
  S "\n-- Triggers: " ++ natToStr st.stats.totalTriggers ++
  S "\n-- Policies: " ++ natToStr st.stats.totalPolicies ++
  S "\n-- Indexes: " ++ natToStr st.stats.totalIndexes ++
  S "\n-- Enums: " ++ natToStr st.stats.totalEnums ++
  S "\n-- Total Rows: " ++ numToLocale st.stats.totalRows ++
  S "\n-- Generated: " ++ st.timestamp ++ S "\n" ++ bannerLine

/-- The FINALIZATION section: its banner, then `finalizationTail`. -/
def finalizationSection (st : RunState) : List Char :=
  bannerLine ++ S "-- FINALIZATION\n" ++ bannerLine ++ finalizationTail st

/-- The sections that precede the DATA section, concatenated. -/
def preDataSQL (st : RunState) : List Char :=
  sqlHeader st ++ schemasSection st ++ enumsSection st ++ tablesSection st ++
    viewsSection st ++ functionsSection st ++ triggersSection st ++
    indexesSection st ++ rlsSection st

/-- `generateCompleteRestoreSQL`: the whole ordered script. -/
def generateCompleteRestoreSQL (st : RunState) : List Char :=
  preDataSQL st ++ dataSection st ++ sequencesSection st ++ finalizationSection st

/-! ## Schema-only and data-only projections -/

/-- The literal the schema-only regex starts its match at (the pattern is
`-- DATA` then a non-greedy any-character run then `-- FINALIZATION`,
applied globally). -/
def dataMark : List Char := S "-- DATA"

/-- The literal the non-greedy match runs up to, and the replacement
text. -/
def finalMark : List Char := S "-- FINALIZATION"

/-- The JS global regex replace `generateSchemaOnlySQL` performs, which
rewrites each span from a `-- DATA` marker through the nearest following
`-- FINALIZATION` marker to just `-- FINALIZATION`: find the leftmost
`-- DATA` (splitting off the 7-character marker), the nearest following
`-- FINALIZATION` (15 characters), splice in the replacement, continue
after the match.  The first argument is recursion fuel: one spine cell per
match suffices, and every match consumes at least one input character, so
the input itself (supplied by `jsReplaceDataFin`) always has enough. -/
def jsReplaceDataFinGo : List Char → List Char → List Char
  | [], cs => cs
  | _ :: fuelT, cs =>
    match findSub cs dataMark with
    | none => cs
    | some (before, fromD) =>
      match findSub (fromD.drop 7) finalMark with
      | none => cs
      | some (_, fromF) =>
        before ++ finalMark ++ jsReplaceDataFinGo fuelT (fromF.drop 15)

/-- The global regex replace `generateSchemaOnlySQL` applies. -/
def jsReplaceDataFin (cs : List Char) : List Char := jsReplaceDataFinGo cs cs

/-- `generateSchemaOnlySQL`: the complete script with every
`-- DATA … -- FINALIZATION` span collapsed to `-- FINALIZATION`. -/
def generateSchemaOnlySQL (st : RunState) : List Char :=
  jsReplaceDataFin (generateCompleteRestoreSQL st)

/-- The opening template of the data-only script. -/
def dataOnlyHeader (st : RunState) : List Char :=
  bannerLine ++ S "-- DATA-ONLY RESTORE SCRIPT\n" ++ bannerLine ++
  S "-- Generated: " ++ st.timestamp ++ S "\n-- Source: " ++ st.supabaseUrl ++
  S "\n-- Project: " ++ st.projectName ++ S "\n" ++ bannerLine ++
  S "\n-- Preparation\nSET session_replication_role = replica;\nBEGIN;\n\n"

/-- The DATA section as `generateDataOnlySQL`'s own copy of the insert
loop builds it (the code is duplicated verbatim in the source). -/
def dataSectionDO (st : RunState) : List Char :=
  if 0 < st.data.length then
    sectionBanner (S "DATA") ++
      (st.data.map fun kv => dataTableChunk kv.1 kv.2).flatten
  else []

/-- The closing template of the data-only script. -/
def dataOnlyFooter : List Char :=
  S "-- Reset session\nSET session_replication_role = DEFAULT;\nCOMMIT;\n\n-- Data restore completed\n"

/-- `generateDataOnlySQL`. -/
def generateDataOnlySQL (st : RunState) : List Char :=
  dataOnlyHeader st ++ dataSectionDO st ++ dataOnlyFooter

/-! ## Section bookkeeping for the ordering claim -/

/-- The sections of the complete script, in emission order. -/
inductive SectionTag where
  | header | schemas | enums | tables | views | functions | triggers
  | indexes | rls | data | sequences | finalization
deriving DecidableEq

/-- Is a section's underlying collection non-empty (the generator's
emission guard)?  The header and finalization are unconditional. -/
def sectionPresent (st : RunState) : SectionTag → Bool
  | .header => true
  | .schemas => 0 < st.schemas.length
  | .enums => 0 < st.enums.length
  | .tables => 0 < st.tableStructures.length
  | .views => 0 < st.views.length
  | .functions => 0 < st.functions.length
  | .triggers => 0 < st.triggers.length
  | .indexes => 0 < st.indexes.length
  | .rls => 0 < st.policies.length
  | .data => 0 < st.data.length
  | .sequences => 0 < st.sequences.length
  | .finalization => true

/-- The canonical section order of the complete script. -/
def sectionOrder : List SectionTag :=
  [.header, .schemas, .enums, .tables, .views, .functions, .triggers,
   .indexes, .rls, .data, .sequences, .finalization]

/-- The sections the generator actually emits, each tagged with the text
it contributes. -/
def emittedSections (st : RunState) : List (SectionTag × List Char) :=
  [(.header, sqlHeader st)] ++
  (if 0 < st.schemas.length then [(.schemas, schemasSection st)] else []) ++
  (if 0 < st.enums.length then [(.enums, enumsSection st)] else []) ++
  (if 0 < st.tableStructures.length then [(.tables, tablesSection st)] else []) ++
  (if 0 < st.views.length then [(.views, viewsSection st)] else []) ++
  (if 0 < st.functions.length then [(.functions, functionsSection st)] else []) ++
  (if 0 < st.triggers.length then [(.triggers, triggersSection st)] else []) ++
  (if 0 < st.indexes.length then [(.indexes, indexesSection st)] else []) ++
  (if 0 < st.policies.length then [(.rls, rlsSection st)] else []) ++
  (if 0 < st.data.length then [(.data, dataSection st)] else []) ++
  (if 0 < st.sequences.length then [(.sequences, sequencesSection st)] else []) ++
  [(.finalization, finalizationSection st)]

/-! ## Claim C4: section emission and ordering -/

theorem ite_singleton_append {α : Type} (c : Prop) [Decidable c] (a : α)
    (r : List α) : (if c then [a] else []) ++ r = if c then a :: r else r := by
  split <;> rfl

theorem ite_cons_append {α : Type} (c : Prop) [Decidable c] (a : α)
    (r1 r2 : List α) :
    (if c then a :: r1 else r1) ++ r2 = if c then a :: (r1 ++ r2) else r1 ++ r2 := by
  split <;> rfl

theorem schemasSection_collapse (st : RunState) :
    (if 0 < st.schemas.length then schemasSection st else []) = schemasSection st := by
  by_cases h : 0 < st.schemas.length
  · rw [if_pos h]
  · rw [if_neg h, schemasSection, if_neg h]

theorem enumsSection_collapse (st : RunState) :
    (if 0 < st.enums.length then enumsSection st else []) = enumsSection st := by
  by_cases h : 0 < st.enums.length
  · rw [if_pos h]
  · rw [if_neg h, enumsSection, if_neg h]

theorem tablesSection_collapse (st : RunState) :
    (if 0 < st.tableStructures.length then tablesSection st else []) =
      tablesSection st := by
  by_cases h : 0 < st.tableStructures.length
  · rw [if_pos h]
  · rw [if_neg h, tablesSection, if_neg h]

theorem viewsSection_collapse (st : RunState) :
    (if 0 < st.views.length then viewsSection st else []) = viewsSection st := by
  by_cases h : 0 < st.views.length
  · rw [if_pos h]
  · rw [if_neg h, viewsSection, if_neg h]

theorem functionsSection_collapse (st : RunState) :
    (if 0 < st.functions.length then functionsSection st else []) =
      functionsSection st := by
  by_cases h : 0 < st.functions.length
  · rw [if_pos h]
  · rw [if_neg h, functionsSection, if_neg h]

theorem triggersSection_collapse (st : RunState) :
    (if 0 < st.triggers.length then triggersSection st else []) =
      triggersSection st := by
  by_cases h : 0 < st.triggers.length
  · rw [if_pos h]
  · rw [if_neg h, triggersSection, if_neg h]

theorem indexesSection_collapse (st : RunState) :
    (if 0 < st.indexes.length then indexesSection st else []) =
      indexesSection st := by
  by_cases h : 0 < st.indexes.length
  · rw [if_pos h]
  · rw [if_neg h, indexesSection, if_neg h]

theorem rlsSection_collapse (st : RunState) :
    (if 0 < st.policies.length then rlsSection st else []) = rlsSection st := by
  by_cases h : 0 < st.policies.length
  · rw [if_pos h]
  · rw [if_neg h, rlsSection, if_neg h]

theorem dataSection_collapse (st : RunState) :
    (if 0 < st.data.length then dataSection st else []) = dataSection st := by
  by_cases h : 0 < st.data.length
  · rw [if_pos h]
  · rw [if_neg h, dataSection, if_neg h]

theorem sequencesSection_collapse (st : RunState) :
    (if 0 < st.sequences.length then sequencesSection st else []) =
      sequencesSection st := by
  by_cases h : 0 < st.sequences.length
  · rw [if_pos h]
  · rw [if_neg h, sequencesSection, if_neg h]

theorem chunkListF_flatten {α : Type} (bs : Nat) (hbs : 0 < bs) :
    ∀ (fuel : Nat) (l : List α), l.length ≤ fuel →
      (chunkListF fuel bs l).flatten = l := by
  intro fuel
  induction fuel with
  | zero =>
    intro l h
    have : l = [] := List.length_eq_zero.mp (by omega)
    subst this
    rfl
  | succ f ih =>
    intro l h
    rcases l with - | ⟨x, xs⟩
    · rfl
    · simp only [chunkListF, List.isEmpty_cons, Bool.false_eq_true, if_false,
        List.flatten_cons]
      rw [ih ((x :: xs).drop bs)
        (by rw [List.length_drop]; simp only [List.length_cons] at h ⊢; omega)]
      exact List.take_append_drop bs (x :: xs)

theorem chunkListF_mem {α : Type} (bs : Nat) (hbs : 0 < bs) :
    ∀ (fuel : Nat) (l : List α) (b : List α), b ∈ chunkListF fuel bs l →
      b ≠ [] ∧ b.length ≤ bs := by
  intro fuel
  induction fuel with
  | zero => intro l b h; simp [chunkListF] at h
  | succ f ih =>
    intro l b h
    rcases l with - | ⟨x, xs⟩
    · simp [chunkListF] at h
    · simp only [chunkListF, List.isEmpty_cons, Bool.false_eq_true, if_false,
        List.mem_cons] at h
      rcases h with h | h
      · subst h
        constructor
        · intro hb
          have := congrArg List.length hb
          simp at this
          omega
        · simp
      · exact ih _ _ h

/-- C4: the complete script is exactly the concatenation of its emitted
sections; the emitted tags are exactly the canonical order filtered by
each section's non-emptiness guard (header/preamble-with-extensions and
finalization unconditional); the RLS section puts all ENABLElines before
all CREATE POLICY statements; and data batching uses a fixed batch size of
100 — batches rebuild the row list exactly, and every batch is non-empty
with at most 100 rows. -/
theorem C4_complete_script_section_order :
    ∀ st : RunState,
    generateCompleteRestoreSQL st =
      ((emittedSections st).map Prod.snd).flatten ∧
    (emittedSections st).map Prod.fst = sectionOrder.filter (sectionPresent st) ∧
    (0 < st.policies.length →
      rlsSection st = sectionBanner (S "ROW LEVEL SECURITY") ++
        ((firstDedup (st.policies.map fun p =>
            p.schemaname ++ S "." ++ p.tablename)).map rlsEnableLine).flatten ++
        S "\n" ++ (st.policies.map policySQL).flatten) ∧
    (∀ (rows : List Row), (chunkList 100 rows).flatten = rows ∧
      ∀ b ∈ chunkList 100 rows, b ≠ [] ∧ b.length ≤ 100) := by
  intro st
  refine ⟨?_, ?_, ?_, ?_⟩
  · simp only [emittedSections, List.map_append, List.map_cons, List.map_nil,
      apply_ite (List.map Prod.snd), List.flatten_append, List.flatten_cons,
      List.flatten_nil, List.append_nil, apply_ite List.flatten]
    simp only [schemasSection_collapse, enumsSection_collapse,
      tablesSection_collapse, viewsSection_collapse, functionsSection_collapse,
      triggersSection_collapse, indexesSection_collapse, rlsSection_collapse,
      dataSection_collapse, sequencesSection_collapse]
    simp [generateCompleteRestoreSQL, preDataSQL, List.append_assoc]
  · simp only [emittedSections, sectionOrder, List.map_append, List.map_cons,
      List.map_nil, apply_ite (List.map Prod.fst)]
    simp only [List.filter_cons, List.filter_nil, sectionPresent,
      decide_eq_true_eq]
    simp [ite_singleton_append, ite_cons_append, List.append_assoc]
  · intro h
    rw [rlsSection, if_pos h]
  · intro rows
    exact ⟨chunkListF_flatten 100 (by omega) rows.length rows le_rfl,
      fun b hb => chunkListF_mem 100 (by omega) rows.length rows b hb⟩

/-! ## Claim C10: INSERT column lists and CSV headers from the first row -/

theorem rowGet_append_extra (row extra : Row) (c : List Char)
    (h : ∀ k ∈ extra.map Prod.fst, k ≠ c) :
    rowGet (row ++ extra) c = rowGet row c := by
  induction row with
  | nil =>
    simp only [List.nil_append, rowGet]
    rw [List.find?_eq_none.mpr]
    · rfl
    · intro x hx
      simp only [decide_eq_true_eq]
      exact h x.1 (List.mem_map_of_mem Prod.fst hx)
  | cons p row' ih =>
    by_cases hp : p.1 = c
    · simp [rowGet, List.find?, hp]
    · have hd : (decide (p.1 = c)) = false := by simp [hp]
      simp only [List.cons_append, rowGet, List.find?, hd]
      exact ih

theorem rowGet_eq_none (row : Row) (c : List Char)
    (h : c ∉ row.map Prod.fst) :
    rowGet row c = none := by
  rw [rowGet, List.find?_eq_none.mpr]
  · rfl
  · intro x hx
    simp only [decide_eq_true_eq]
    intro heq
    exact h (heq ▸ List.mem_map_of_mem Prod.fst hx)

/-- C10: for a table with at least one extracted row, both the INSERT
column list and the CSV header are exactly the first row's keys, in the
first row's key order; keys of later rows outside that set are ignored by
both renderers, and a column missing from a row renders as `NULL` in SQL
and as an empty field in CSV.  The concrete two-row example shows the
dropped extra key `c` and the missing key `b`. -/
theorem C10_first_row_shapes_outputs :
    ∀ (tn : List Char) (r0 : Row) (rest : List Row) (tot : Nat) (w : Bool)
      (row extra : Row) (c : List Char),
    dataTableChunk tn (.full (r0 :: rest) tot w) =
      S "-- Data for table: " ++ tn ++ S " (" ++
        numToLocale (r0 :: rest).length ++ S " rows)\n" ++
      ((chunkList 100 (r0 :: rest)).map fun batch =>
        S "INSERT INTO \"" ++ tn ++ S "\" (" ++
          List.intercalate (S ", ")
            ((r0.map Prod.fst).map fun cc => S "\"" ++ cc ++ S "\"") ++
          S ") VALUES\n" ++
          List.intercalate (S ",\n")
            (batch.map (sqlInsertRowVals (r0.map Prod.fst))) ++
          S ";\n\n").flatten ∧
    csvForTable (.full (r0 :: rest) tot w) =
      List.intercalate (S ",")
        ((r0.map Prod.fst).map fun cc => S "\"" ++ cc ++ S "\"") ++ S "\n" ++
      ((r0 :: rest).map (csvLine (r0.map Prod.fst))).flatten ∧
    ((∀ k ∈ extra.map Prod.fst, k ∉ r0.map Prod.fst) →
      sqlInsertRowVals (r0.map Prod.fst) (row ++ extra) =
        sqlInsertRowVals (r0.map Prod.fst) row ∧
      csvLine (r0.map Prod.fst) (row ++ extra) =
        csvLine (r0.map Prod.fst) row) ∧
    (c ∉ row.map Prod.fst →
      renderSQLOpt (rowGet row c) = S "NULL" ∧
      renderCSVValue (rowGet row c) = []) ∧
    dataTableChunk (S "t")
      (.full [[(S "a", JSVal.num 1), (S "b", JSVal.num 2)],
              [(S "a", JSVal.num 3), (S "c", JSVal.num 4)]] 2 false) =
      S "-- Data for table: t (2 rows)\nINSERT INTO \"t\" (\"a\", \"b\") VALUES\n  (1, 2),\n  (3, NULL);\n\n" ∧
    csvForTable
      (.full [[(S "a", JSVal.num 1), (S "b", JSVal.num 2)],
              [(S "a", JSVal.num 3), (S "c", JSVal.num 4)]] 2 false) =
      S "\"a\",\"b\"\n1,2\n3,\n" := by
  intro tn r0 rest tot w row extra c
  refine ⟨rfl, rfl, ?_, ?_, ?_, ?_⟩
  · intro hextra
    have hget : ∀ cc ∈ r0.map Prod.fst,
        rowGet (row ++ extra) cc = rowGet row cc := by
      intro cc hcc
      exact rowGet_append_extra row extra cc fun k hk =>
        fun heq => hextra k hk (heq ▸ hcc)
    have hmapS : (r0.map Prod.fst).map
          (fun cc => renderSQLOpt (rowGet (row ++ extra) cc)) =
        (r0.map Prod.fst).map (fun cc => renderSQLOpt (rowGet row cc)) :=
      List.map_congr_left fun cc hcc => by rw [hget cc hcc]
    have hmapC : (r0.map Prod.fst).map
          (fun cc => renderCSVValue (rowGet (row ++ extra) cc)) =
        (r0.map Prod.fst).map (fun cc => renderCSVValue (rowGet row cc)) :=
      List.map_congr_left fun cc hcc => by rw [hget cc hcc]
    constructor
    · rw [sqlInsertRowVals, sqlInsertRowVals, hmapS]
    · rw [csvLine, csvLine, hmapC]
  · intro hmiss
    rw [rowGet_eq_none row c hmiss]
    exact ⟨rfl, rfl⟩
  · decide
  · decide

/-! ## Claim C3: schema-only and data-only projections -/

/-- A small but fully populated run state: one schema, one policy, one
data table with one row, one sequence, one discovered table. -/
def sampleState : RunState where
  timestamp := S "2024-01-01T00:00:00.000Z"
  supabaseUrl := S "https://xyz.supabase.co"
  projectName := S "xyz"
  backupVersion := S "v2.0.0"
  includeDropStatements := false
  schemas := [⟨S "public", S "postgres"⟩]
  enums := []
  tableStructures := []
  views := []
  functions := []
  triggers := []
  indexes := []
  policies := [⟨S "public", S "users", S "allow_read", S "SELECT",
    [S "authenticated"], some (S "true"), none⟩]
  data := [(S "users", .full [[(S "id", JSVal.num 1)]] 1 false)]
  sequences := [⟨S "public", S "users_id_seq", S "1", S "1", S "1",
    S "9223372036854775807", S "NO"⟩]
  tables := [⟨S "public", S "users", S "BASE TABLE", S "postgres"⟩]
  stats := ⟨1, 0, 0, 0, 1, 0, 0, 1⟩

set_option maxRecDepth 4000 in
/-- C3 (counterexample): on a run state with both data and a sequence, the
complete script contains the `CREATE SEQUENCE` statement, but the
schema-only script does not — the regex span from the DATA banner to the
FINALIZATION banner swallows the SEQUENCES section sitting between them,
so schema-only is not "the complete script with only the data section
removed". -/
theorem C3_sequences_lost_counterexample :
    0 < sampleState.sequences.length ∧
    hasSub (generateCompleteRestoreSQL sampleState) (S "CREATE SEQUENCE") = true ∧
    hasSub (generateSchemaOnlySQL sampleState) (S "CREATE SEQUENCE") = false ∧
    hasSub (generateCompleteRestoreSQL sampleState) (S "INSERT INTO") = true ∧
    hasSub (generateSchemaOnlySQL sampleState) (S "INSERT INTO") = false := by
  refine ⟨by decide, by decide, by decide, by decide, by decide⟩

theorem jsReplaceDataFinGo_step (fc : Char) (ft cs before fromD mid fromF : List Char)
    (h1 : findSub cs dataMark = some (before, fromD))
    (h2 : findSub (fromD.drop 7) finalMark = some (mid, fromF)) :
    jsReplaceDataFinGo (fc :: ft) cs =
      before ++ finalMark ++ jsReplaceDataFinGo ft (fromF.drop 15) := by
  simp only [jsReplaceDataFinGo, h1, h2]

theorem jsReplaceDataFinGo_none (fuel cs : List Char)
    (h : findSub cs dataMark = none) : jsReplaceDataFinGo fuel cs = cs := by
  cases fuel with
  | nil => rfl
  | cons a t => simp only [jsReplaceDataFinGo, h]

/-- C3 (amended): the projections behave as follows.  When a data section
is present and the markers sit at their banner positions (the leftmost
`-- DATA` right after the pre-data sections plus one banner line, the
nearest `-- FINALIZATION` at offset 49 of the finalization section, no
stray marker in the finalization tail), the schema-only script keeps the
pre-data sections and the finalization tail verbatim but drops everything
in between — the DATA section **and** the SEQUENCES section, which the
complete script places between data and finalization.  With no data
section present the script is returned unchanged (sequences then
survive).  The data-only script is exactly its own header, its own copy
of the data section — identical to the complete script's — and its
session footer. -/
theorem C3_schema_only_drops_sequences :
    ∀ (st : RunState) (restD mid : List Char),
    (0 < st.data.length →
      findSub (generateCompleteRestoreSQL st) dataMark
        = some (preDataSQL st ++ bannerLine, restD) →
      findSub (restD.drop 7) finalMark
        = some (mid, (finalizationSection st).drop 49) →
      findSub ((finalizationSection st).drop 64) dataMark = none →
      generateSchemaOnlySQL st
        = preDataSQL st ++ bannerLine ++ finalMark ++
            (finalizationSection st).drop 64) ∧
    (findSub (generateCompleteRestoreSQL st) dataMark = none →
      generateSchemaOnlySQL st = generateCompleteRestoreSQL st) ∧
    generateDataOnlySQL st = dataOnlyHeader st ++ dataSectionDO st ++ dataOnlyFooter ∧
    dataSectionDO st = dataSection st ∧
    (0 < st.data.length →
      dataSection st = sectionBanner (S "DATA") ++
        (st.data.map fun kv => dataTableChunk kv.1 kv.2).flatten) ∧
    (finalizationSection st).drop 49 =
      finalMark ++ (finalizationSection st).drop 64 := by
  intro st restD mid
  have hsplitF : (finalizationSection st).drop 49 =
      finalMark ++ (finalizationSection st).drop 64 := by
    unfold finalizationSection
    rw [show (S "-- FINALIZATION\n" : List Char) = finalMark ++ S "\n" from rfl]
    simp only [List.append_assoc]
    rw [show (49 : Nat) = bannerLine.length from rfl]
    rw [List.drop_left]
    rw [show (64 : Nat) = bannerLine.length + 15 from rfl]
    rw [List.drop_append 15]
    rw [show (15 : Nat) = finalMark.length from rfl]
    rw [List.drop_left]
  refine ⟨?_, ?_, rfl, rfl, ?_, hsplitF⟩
  · intro hdata h1 h2 h3
    rcases hCe : generateCompleteRestoreSQL st with - | ⟨c0, ct⟩
    · rw [hCe] at h1
      rw [show findSub [] dataMark = none from rfl] at h1
      exact absurd h1 (by simp)
    · rw [generateSchemaOnlySQL, jsReplaceDataFin, hCe]
      rw [hCe] at h1
      rw [jsReplaceDataFinGo_step c0 ct (c0 :: ct) _ _ _ _ h1 h2]
      rw [List.drop_drop 15 49]
      rw [show (49 + 15 : Nat) = 64 from rfl]
      rw [jsReplaceDataFinGo_none ct _ h3]
  · intro hnone
    rw [generateSchemaOnlySQL, jsReplaceDataFin]
    exact jsReplaceDataFinGo_none _ _ hnone
  · intro hdata
    rw [dataSection, if_pos hdata]

/-- Tail-recursive list equality (the standard `DecidableEq` recursion is
not tail-recursive, which matters when checking long concrete scripts). -/
def eqL {α : Type} [DecidableEq α] : List α → List α → Bool
  | [], [] => true
  | a :: as, b :: bs => if a = b then eqL as bs else false
  | _, _ => false

theorem eqL_iff {α : Type} [DecidableEq α] :
    ∀ a b : List α, eqL a b = true ↔ a = b := by
  intro a
  induction a with
  | nil => intro b; cases b <;> simp [eqL]
  | cons x xs ih =>
    intro b
    cases b with
    | nil => simp [eqL]
    | cons y ys =>
      by_cases h : x = y
      · simp [eqL, h, ih]
      · simp [eqL, h]

/-- Tail-recursively checked equality of `findSub` results. -/
def optPairEqL (x y : Option (List Char × List Char)) : Bool :=
  match x, y with
  | none, none => true
  | some (a, b), some (c, d) => eqL a c && eqL b d
  | _, _ => false

theorem optPairEqL_iff :
    ∀ x y : Option (List Char × List Char), optPairEqL x y = true ↔ x = y := by
  intro x y
  match x, y with
  | none, none => simp [optPairEqL]
  | none, some (c, d) => simp [optPairEqL]
  | some (a, b), none => simp [optPairEqL]
  | some (a, b), some (c, d) =>
    simp [optPairEqL, Bool.and_eq_true, eqL_iff]

set_option maxRecDepth 4000 in
/-- C3 (witness): the amended projection theorem applied to the concrete
`sampleState`, every marker-position hypothesis discharged by
evaluation. -/
theorem C3_schema_only_drops_sequences_witness :
    generateSchemaOnlySQL sampleState = preDataSQL sampleState ++ bannerLine ++
      finalMark ++ (finalizationSection sampleState).drop 64 := by
  have h := C3_schema_only_drops_sequences sampleState
    (S "-- DATA\n" ++ bannerLine ++ S "\n" ++
      (sampleState.data.map fun kv => dataTableChunk kv.1 kv.2).flatten ++
      sequencesSection sampleState ++ finalizationSection sampleState)
    (S "\n" ++ bannerLine ++ S "\n" ++
      (sampleState.data.map fun kv => dataTableChunk kv.1 kv.2).flatten ++
      sequencesSection sampleState ++ bannerLine)
  exact h.1 (by decide) ((optPairEqL_iff _ _).mp (by decide))
    ((optPairEqL_iff _ _).mp (by decide)) (by decide)

set_option maxRecDepth 4000 in
/-- C4 (witness): the ordering theorem applied to `sampleState`, the RLS
and batching hypotheses discharged on concrete inputs. -/
theorem C4_complete_script_section_order_witness :
    (emittedSections sampleState).map Prod.fst =
      sectionOrder.filter (sectionPresent sampleState) ∧
    rlsSection sampleState = sectionBanner (S "ROW LEVEL SECURITY") ++
      ((firstDedup (sampleState.policies.map fun p =>
          p.schemaname ++ S "." ++ p.tablename)).map rlsEnableLine).flatten ++
      S "\n" ++ (sampleState.policies.map policySQL).flatten ∧
    ∀ b ∈ chunkList 100 ([[(S "id", JSVal.num 1)]] : List Row),
      b ≠ [] ∧ b.length ≤ 100 := by
  have h := C4_complete_script_section_order sampleState
  exact ⟨h.2.1, h.2.2.1 (by decide),
    fun b hb => (h.2.2.2 [[(S "id", JSVal.num 1)]]).2 b hb⟩

/-- C10 (witness): the first-row-shape theorem applied at concrete rows,
the extra-keys and missing-key hypotheses discharged by evaluation. -/
theorem C10_first_row_shapes_outputs_witness :
    sqlInsertRowVals ([(S "a", JSVal.num 1)].map Prod.fst)
        ([(S "a", JSVal.num 5)] ++ [(S "z", JSVal.num 9)]) =
      sqlInsertRowVals ([(S "a", JSVal.num 1)].map Prod.fst)
        [(S "a", JSVal.num 5)] ∧
    renderSQLOpt (rowGet [(S "a", JSVal.num 5)] (S "b")) = S "NULL" := by
  have h := C10_first_row_shapes_outputs (S "t") [(S "a", JSVal.num 1)] [] 1 false
    [(S "a", JSVal.num 5)] [(S "z", JSVal.num 9)] (S "b")
  exact ⟨(h.2.2.1 (by decide)).1, (h.2.2.2.1 (by decide)).1⟩

/-! ## Claim C5: losslessness of INSERT literal rendering -/

theorem undoubleCh_cons_ne (c a : Char) (l : List Char) (h : a ≠ c) :
    undoubleCh c (a :: l) = a :: undoubleCh c l := by
  cases l with
  | nil => simp [undoubleCh]
  | cons b t =>
    rw [undoubleCh]
    rw [if_neg (fun hab => h hab.1)]

theorem undoubleCh_doubleCh (c : Char) :
    ∀ l : List Char, undoubleCh c (doubleCh c l) = l := by
  intro l
  induction l with
  | nil => simp [doubleCh, undoubleCh]
  | cons a t ih =>
    by_cases h : a = c
    · have hD : doubleCh c (a :: t) = c :: c :: doubleCh c t := by simp [doubleCh, h]
      rw [hD, undoubleCh, if_pos ⟨rfl, rfl⟩, ih, h]
    · have hD : doubleCh c (a :: t) = a :: doubleCh c t := by simp [doubleCh, h]
      rw [hD, undoubleCh_cons_ne c a _ h, ih]

/-- The SQL string escaping both generators apply: double embedded single
quotes, then double backslashes. -/
def sqlEscapeString (s : List Char) : List Char :=
  doubleCh '\\' (doubleCh '\'' s)

/-- Its inverse: collapse doubled backslashes, then doubled quotes. -/
def sqlUnescapeString (s : List Char) : List Char :=
  undoubleCh '\'' (undoubleCh '\\' s)

theorem sqlUnescape_sqlEscape (s : List Char) :
    sqlUnescapeString (sqlEscapeString s) = s := by
  rw [sqlEscapeString, sqlUnescapeString, undoubleCh_doubleCh, undoubleCh_doubleCh]

/-! ### Decimal digit readback -/

/-- The numeric value of a digit string, most significant first. -/
def digitsVal (l : List Char) : Nat :=
  l.foldl (fun a c => a * 10 + dVal c) 0

theorem dVal_dChar (d : Nat) (h : d < 10) : dVal (dChar d) = d := by
  interval_cases d <;> decide

theorem isDigitCh_dChar (d : Nat) (h : d < 10) : isDigitCh (dChar d) = true := by
  interval_cases d <;> decide

theorem digitsRev_all_digits :
    ∀ (fuel n : Nat), ∀ c ∈ digitsRev fuel n, isDigitCh c = true := by
  intro fuel
  induction fuel with
  | zero => intro n c hc; simp [digitsRev] at hc
  | succ f ih =>
    intro n c hc
    rw [digitsRev] at hc
    by_cases h : n < 10
    · rw [if_pos h] at hc
      simp at hc
      subst hc
      exact isDigitCh_dChar n h
    · rw [if_neg h] at hc
      rcases List.mem_cons.mp hc with h1 | h1
      · subst h1
        exact isDigitCh_dChar _ (Nat.mod_lt n (by omega))
      · exact ih (n / 10) c h1

theorem natToStr_all_digits (n : Nat) : ∀ c ∈ natToStr n, isDigitCh c = true := by
  intro c hc
  rw [natToStr] at hc
  exact digitsRev_all_digits (n + 1) n c (List.mem_reverse.mp hc)

theorem natToStr_ne_nil (n : Nat) : natToStr n ≠ [] := by
  rw [natToStr, digitsRev]
  by_cases h : n < 10
  · rw [if_pos h]; simp
  · rw [if_neg h]; simp

theorem digitsRev_fuel_stable :
    ∀ (f1 f2 n : Nat), n < f1 + 1 → n < f2 + 1 →
      digitsRev (f1 + 1) n = digitsRev (f2 + 1) n := by
  intro f1
  induction f1 using Nat.strong_induction_on with
  | _ f1 ih =>
    intro f2 n h1 h2
    rw [digitsRev, digitsRev]
    by_cases h : n < 10
    · rw [if_pos h, if_pos h]
    · rw [if_neg h, if_neg h]
      have hd : n / 10 < n := Nat.div_lt_self (by omega) (by omega)
      rcases f1 with - | f1'
      · omega
      · rcases f2 with - | f2'
        · omega
        · rw [ih f1' (by omega) f2' (n / 10) (by omega) (by omega)]

theorem foldl_digitsRev_reverse :
    ∀ (fuel n : Nat), n < fuel + 1 →
      ∀ acc, ((digitsRev (fuel + 1) n).reverse).foldl (fun a c => a * 10 + dVal c) acc
        = acc * 10 ^ (digitsRev (fuel + 1) n).length + n := by
  intro fuel
  induction fuel using Nat.strong_induction_on with
  | _ fuel ih =>
    intro n hn acc
    rw [digitsRev]
    by_cases h : n < 10
    · rw [if_pos h]
      simp [List.foldl, dVal_dChar n h]
    · rw [if_neg h]
      have hd : n / 10 < n := Nat.div_lt_self (by omega) (by omega)
      rcases fuel with - | f'
      · omega
      · have hrw : digitsRev (f' + 1) (n / 10) = digitsRev (n / 10 + 1) (n / 10) :=
          digitsRev_fuel_stable f' (n / 10) (n / 10) (by omega) (by omega)
        rw [List.reverse_cons, List.foldl_append]
        rw [hrw, ih (n / 10) (by omega) (n / 10) (by omega) acc]
        simp only [List.foldl_cons, List.foldl_nil, List.length_cons]
        rw [dVal_dChar _ (Nat.mod_lt n (by omega))]
        rw [pow_succ]
        have heq : ∀ L : Nat, (acc * 10 ^ L + n / 10) * 10 + n % 10
            = acc * (10 ^ L * 10) + (n / 10 * 10 + n % 10) := fun L => by ring
        rw [heq]
        congr 1
        omega

theorem digitsVal_natToStr (n : Nat) : digitsVal (natToStr n) = n := by
  rw [digitsVal, natToStr]
  rw [foldl_digitsRev_reverse n n (by omega) 0]
  simp

theorem digitsRev_length_le :
    ∀ (fuel n k : Nat), n < 10 ^ k → 0 < k → (digitsRev fuel n).length ≤ k := by
  intro fuel
  induction fuel with
  | zero => intro n k _ _; simp [digitsRev]
  | succ f ih =>
    intro n k hn hk
    rw [digitsRev]
    by_cases h : n < 10
    · rw [if_pos h]; simpa using hk
    · rw [if_neg h]
      rcases k with - | k'
      · omega
      · have hk' : 0 < k' := by
          by_contra hz
          have : k' = 0 := by omega
          subst this
          simp at hn
          omega
        have hdiv : n / 10 < 10 ^ k' := by
          rw [Nat.div_lt_iff_lt_mul (by omega : 0 < 10)]
          calc n < 10 ^ (k' + 1) := hn
            _ = 10 ^ k' * 10 := by rw [pow_succ]
        have := ih (n / 10) k' hdiv hk'
        simp only [List.length_cons]
        omega

theorem natToStr_length_le (n k : Nat) (hn : n < 10 ^ k) (hk : 0 < k) :
    (natToStr n).length ≤ k := by
  rw [natToStr, List.length_reverse]
  exact digitsRev_length_le (n + 1) n k hn hk

theorem digitsVal_replicate_zero (j : Nat) (ds : List Char) :
    digitsVal (List.replicate j '0' ++ ds) = digitsVal ds := by
  rw [digitsVal, digitsVal, List.foldl_append]
  have hz : ∀ i : Nat, List.foldl (fun a c => a * 10 + dVal c) 0 (List.replicate i '0') = 0 := by
    intro i
    induction i with
    | zero => rfl
    | succ i' ih => rw [List.replicate_succ, List.foldl_cons]; simpa [dVal] using ih
  rw [hz]

/-- The three facts needed about a zero-padded fixed-width decimal block. -/
theorem padZ_natToStr_block (k n : Nat) (hn : n < 10 ^ k) (hk : 0 < k) :
    (padZ k (natToStr n)).length = k ∧
      (padZ k (natToStr n)).all isDigitCh = true ∧
      digitsVal (padZ k (natToStr n)) = n := by
  have hle := natToStr_length_le n k hn hk
  refine ⟨?_, ?_, ?_⟩
  · rw [padZ, List.length_append, List.length_replicate]
    omega
  · rw [padZ, List.all_append]
    have h1 : (List.replicate (k - (natToStr n).length) '0').all isDigitCh = true := by
      rw [List.all_eq_true]
      intro c hc
      rw [List.eq_of_mem_replicate hc]
      decide
    have h2 : (natToStr n).all isDigitCh = true := by
      rw [List.all_eq_true]
      exact fun c hc => natToStr_all_digits n c hc
    rw [h1, h2]
    rfl
  · rw [padZ, digitsVal_replicate_zero, digitsVal_natToStr]

/-! ### A fixed-format reader for `toISOString` output -/

/-- Read a fixed-width decimal block. -/
def peelNum (k : Nat) (s : List Char) : Option (Nat × List Char) :=
  if (s.take k).length = k ∧ (s.take k).all isDigitCh = true then
    some (digitsVal (s.take k), s.drop k)
  else none

/-- Read one expected literal character. -/
def peelLit (c : Char) (s : List Char) : Option (List Char) :=
  match s with
  | a :: rest => if a = c then some rest else none
  | [] => none

/-- Reader for the exact `YYYY-MM-DDTHH:mm:ss.sssZ` shape emitted by
`JSDate.toISOString`. -/
def parseISO (s : List Char) : Option JSDate :=
  (peelNum 4 s).bind fun py =>
  (peelLit '-' py.2).bind fun r1 =>
  (peelNum 2 r1).bind fun pmo =>
  (peelLit '-' pmo.2).bind fun r2 =>
  (peelNum 2 r2).bind fun pd =>
  (peelLit 'T' pd.2).bind fun r3 =>
  (peelNum 2 r3).bind fun ph =>
  (peelLit ':' ph.2).bind fun r4 =>
  (peelNum 2 r4).bind fun pmi =>
  (peelLit ':' pmi.2).bind fun r5 =>
  (peelNum 2 r5).bind fun ps =>
  (peelLit '.' ps.2).bind fun r6 =>
  (peelNum 3 r6).bind fun pms =>
  (peelLit 'Z' pms.2).bind fun r7 =>
  if r7 = [] then some ⟨py.1, pmo.1, pd.1, ph.1, pmi.1, ps.1, pms.1⟩ else none

theorem peelNum_append (k : Nat) (blk rest : List Char)
    (hlen : blk.length = k) (hdig : blk.all isDigitCh = true) :
    peelNum k (blk ++ rest) = some (digitsVal blk, rest) := by
  have ht : (blk ++ rest).take k = blk := by
    rw [← hlen, List.take_left]
  have hd : (blk ++ rest).drop k = rest := by
    rw [← hlen, List.drop_left]
  rw [peelNum, ht, hd, if_pos ⟨hlen, hdig⟩]

theorem peelLit_cons (c : Char) (rest : List Char) :
    peelLit c (c :: rest) = some rest := by
  simp [peelLit]

theorem parseISO_blocks (Y MO D H MI SS MS : List Char)
    (hyl : Y.length = 4) (hyd : Y.all isDigitCh = true)
    (hmol : MO.length = 2) (hmod : MO.all isDigitCh = true)
    (hdl : D.length = 2) (hdd : D.all isDigitCh = true)
    (hhl : H.length = 2) (hhd : H.all isDigitCh = true)
    (hmil : MI.length = 2) (hmid : MI.all isDigitCh = true)
    (hsl : SS.length = 2) (hsd : SS.all isDigitCh = true)
    (hmsl : MS.length = 3) (hmsd : MS.all isDigitCh = true) :
    parseISO (Y ++ '-' :: (MO ++ '-' :: (D ++ 'T' :: (H ++ ':' :: (MI ++ ':' ::
        (SS ++ '.' :: (MS ++ ['Z'])))))))
      = some ⟨digitsVal Y, digitsVal MO, digitsVal D, digitsVal H,
          digitsVal MI, digitsVal SS, digitsVal MS⟩ := by
  rw [parseISO]
  rw [peelNum_append 4 _ _ hyl hyd, Option.some_bind]
  rw [peelLit_cons, Option.some_bind]
  rw [peelNum_append 2 _ _ hmol hmod, Option.some_bind]
  rw [peelLit_cons, Option.some_bind]
  rw [peelNum_append 2 _ _ hdl hdd, Option.some_bind]
  rw [peelLit_cons, Option.some_bind]
  rw [peelNum_append 2 _ _ hhl hhd, Option.some_bind]
  rw [peelLit_cons, Option.some_bind]
  rw [peelNum_append 2 _ _ hmil hmid, Option.some_bind]
  rw [peelLit_cons, Option.some_bind]
  rw [peelNum_append 2 _ _ hsl hsd, Option.some_bind]
  rw [peelLit_cons, Option.some_bind]
  rw [peelNum_append 3 _ _ hmsl hmsd, Option.some_bind]
  rw [peelLit_cons, Option.some_bind]
  rw [if_pos rfl]

theorem toISO_shape (d : JSDate) :
    d.toISOString = padZ 4 (natToStr d.year) ++ '-' :: (padZ 2 (natToStr d.month) ++ '-' ::
      (padZ 2 (natToStr d.day) ++ 'T' :: (padZ 2 (natToStr d.hour) ++ ':' ::
      (padZ 2 (natToStr d.minute) ++ ':' :: (padZ 2 (natToStr d.second) ++ '.' ::
      (padZ 3 (natToStr d.ms) ++ ['Z'])))))) := by
  rw [JSDate.toISOString]
  rw [show S "-" = ['-'] from rfl, show S "T" = ['T'] from rfl,
    show S ":" = [':'] from rfl, show S "." = ['.'] from rfl,
    show S "Z" = ['Z'] from rfl]
  simp only [List.append_assoc, List.cons_append, List.nil_append]

theorem parseISO_toISOString (d : JSDate) (hv : d.valid) :
    parseISO d.toISOString = some d := by
  obtain ⟨hy, hmo, hd, hh, hmi, hs, hms⟩ := hv
  obtain ⟨hyl, hyd, hyv⟩ := padZ_natToStr_block 4 d.year hy (by omega)
  obtain ⟨hmol, hmod, hmov⟩ := padZ_natToStr_block 2 d.month hmo (by omega)
  obtain ⟨hdl, hdd, hdv⟩ := padZ_natToStr_block 2 d.day hd (by omega)
  obtain ⟨hhl, hhd, hhv⟩ := padZ_natToStr_block 2 d.hour hh (by omega)
  obtain ⟨hmil, hmid, hmiv⟩ := padZ_natToStr_block 2 d.minute hmi (by omega)
  obtain ⟨hsl, hsd, hsv⟩ := padZ_natToStr_block 2 d.second hs (by omega)
  obtain ⟨hmsl, hmsd, hmsv⟩ := padZ_natToStr_block 3 d.ms hms (by omega)
  rw [toISO_shape,
    parseISO_blocks _ _ _ _ _ _ _ hyl hyd hmol hmod hdl hdd hhl hhd hmil hmid
      hsl hsd hmsl hmsd,
    hyv, hmov, hdv, hhv, hmiv, hsv, hmsv]

/-! ### Reading back `JSON.stringify` output -/

def hexVal (c : Char) : Nat := if isDigitCh c then dVal c else c.toNat - 87
def isHexLow (c : Char) : Bool :=
  isDigitCh c || (decide ('a' ≤ c) && decide (c ≤ 'f'))
def parseJStr : List Char → Option (List Char × List Char)
  | [] => none
  | c :: rest =>
    if c = '"' then some ([], rest)
    else if c = '\\' then
      match rest with
      | [] => none
      | e :: rest1 =>
        if e = '"' then (parseJStr rest1).map fun pr => ('"' :: pr.1, pr.2)
        else if e = '\\' then (parseJStr rest1).map fun pr => ('\\' :: pr.1, pr.2)
        else if e = 'b' then (parseJStr rest1).map fun pr => ('\x08' :: pr.1, pr.2)
        else if e = 'f' then (parseJStr rest1).map fun pr => ('\x0c' :: pr.1, pr.2)
        else if e = 'n' then (parseJStr rest1).map fun pr => ('\n' :: pr.1, pr.2)
        else if e = 'r' then (parseJStr rest1).map fun pr => ('\r' :: pr.1, pr.2)
        else if e = 't' then (parseJStr rest1).map fun pr => ('\t' :: pr.1, pr.2)
        else if e = 'u' then
          match rest1 with
          | h1 :: h2 :: h3 :: h4 :: rest2 =>
            if isHexLow h1 && isHexLow h2 && isHexLow h3 && isHexLow h4 then
              (parseJStr rest2).map fun pr =>
                (Char.ofNat (((hexVal h1 * 16 + hexVal h2) * 16 + hexVal h3) * 16
                  + hexVal h4) :: pr.1, pr.2)
            else none
          | _ => none
        else none
    else (parseJStr rest).map fun pr => (c :: pr.1, pr.2)

def obraceCh : Char := Char.ofNat 123
def cbraceCh : Char := Char.ofNat 125

/-- Greedy decimal-digit scan with accumulator. -/
def parseDigitsAcc (acc : Nat) : List Char → Nat × List Char
  | [] => (acc, [])
  | c :: rest =>
    if isDigitCh c then parseDigitsAcc (acc * 10 + dVal c) rest else (acc, c :: rest)

mutual
def parseJsonF : Nat → List Char → Option (Json × List Char)
  | 0, _ => none
  | f + 1, cs =>
    if startsWith (S "null") cs then some (.null, cs.drop 4)
    else if startsWith (S "true") cs then some (.bool true, cs.drop 4)
    else if startsWith (S "false") cs then some (.bool false, cs.drop 5)
    else if cs.headD ' ' = '"' then (parseJStr (cs.drop 1)).map fun pr => (.str pr.1, pr.2)
    else if cs.headD ' ' = '[' then
      (parseItemsF f (cs.drop 1)).map fun pr => (.arr pr.1, pr.2)
    else if cs.headD ' ' = obraceCh then
      (parseFieldsF f (cs.drop 1)).map fun pr => (.obj pr.1, pr.2)
    else if cs.headD ' ' = '-' then
      if isDigitCh ((cs.drop 1).headD 'x') then
        some (.num (-((parseDigitsAcc 0 (cs.drop 1)).1 : Int)),
          (parseDigitsAcc 0 (cs.drop 1)).2)
      else none
    else if isDigitCh (cs.headD 'x') then
      some (.num ((parseDigitsAcc 0 cs).1 : Int), (parseDigitsAcc 0 cs).2)
    else none
def parseItemsF : Nat → List Char → Option (JsonList × List Char)
  | 0, _ => none
  | f + 1, cs =>
    if cs.headD ' ' = ']' then some (.nil, cs.drop 1)
    else
      match parseJsonF f cs with
      | none => none
      | some (j, r) =>
        if r.headD ' ' = ',' then
          (parseItemsF f (r.drop 1)).map fun pr => (.cons j pr.1, pr.2)
        else if r.headD ' ' = ']' then some (.cons j .nil, r.drop 1)
        else none
def parseFieldsF : Nat → List Char → Option (JsonFields × List Char)
  | 0, _ => none
  | f + 1, cs =>
    if cs.headD ' ' = cbraceCh then some (.nil, cs.drop 1)
    else if cs.headD ' ' = '"' then
      match parseJStr (cs.drop 1) with
      | none => none
      | some (k, r1) =>
        if r1.headD ' ' = ':' then
          match parseJsonF f (r1.drop 1) with
          | none => none
          | some (v, r2) =>
            if r2.headD ' ' = ',' then
              (parseFieldsF f (r2.drop 1)).map fun pr => (.cons k v pr.1, pr.2)
            else if r2.headD ' ' = cbraceCh then some (.cons k v .nil, r2.drop 1)
            else none
        else none
    else none
end

mutual
def jsonSize : Json → Nat
  | .null => 1
  | .bool _ => 1
  | .num _ => 1
  | .str _ => 1
  | .arr es => jsonListSize es + 1
  | .obj fs => jsonFieldsSize fs + 1
def jsonListSize : JsonList → Nat
  | .nil => 1
  | .cons h t => jsonSize h + jsonListSize t + 1
def jsonFieldsSize : JsonFields → Nat
  | .nil => 1
  | .cons _ v t => jsonSize v + jsonFieldsSize t + 1
end

/-- A character that can begin a `JSON.stringify` output. -/
def isJsonHead (c : Char) : Bool :=
  c = 'n' || c = 't' || c = 'f' || c = '"' || c = '[' || c = obraceCh || c = '-'
    || isDigitCh c


theorem isHexLow_hexCh (n : Nat) (h : n < 16) : isHexLow (hexCh n) = true := by
  interval_cases n <;> decide

theorem hexVal_hexCh (n : Nat) (h : n < 16) : hexVal (hexCh n) = n := by
  interval_cases n <;> decide

theorem escJsonStr_cons (c : Char) (t : List Char) :
    escJsonStr (c :: t) = escJsonChar c ++ escJsonStr t := by
  simp [escJsonStr]

theorem parseJStr_escaped_literal (e repl : Char) (t rest : List Char)
    (hmap : if e = '"' then repl = '"' else if e = '\\' then repl = '\\'
      else if e = 'b' then repl = '\x08' else if e = 'f' then repl = '\x0c'
      else if e = 'n' then repl = '\n' else if e = 'r' then repl = '\x0d'
      else if e = 't' then repl = '\t' else False)
    (ih : parseJStr (escJsonStr t ++ '"' :: rest) = some (t, rest)) :
    parseJStr ('\\' :: e :: (escJsonStr t ++ '"' :: rest)) = some (repl :: t, rest) := by
  rw [parseJStr.eq_def]
  simp only [reduceIte, reduceCtorEq]
  by_cases h1 : e = '"'
  · subst h1; simp at hmap; simp [hmap, ih]
  · by_cases h2 : e = '\\'
    · subst h2; simp at hmap; simp [hmap, ih]
    · by_cases h3 : e = 'b'
      · subst h3; simp at hmap; simp [hmap, ih]
      · by_cases h4 : e = 'f'
        · subst h4; simp at hmap; simp [hmap, ih]
        · by_cases h5 : e = 'n'
          · subst h5; simp at hmap; simp [hmap, ih]
          · by_cases h6 : e = 'r'
            · subst h6; simp at hmap; simp [hmap, ih]
            · by_cases h7 : e = 't'
              · subst h7; simp at hmap; simp [hmap, ih]
              · rw [if_neg h1, if_neg h2, if_neg h3, if_neg h4, if_neg h5,
                  if_neg h6, if_neg h7] at hmap
                exact absurd hmap (by simp)

theorem parseJStr_esc (s rest : List Char) :
    parseJStr (escJsonStr s ++ '"' :: rest) = some (s, rest) := by
  induction s with
  | nil =>
    show parseJStr (escJsonStr [] ++ '"' :: rest) = some ([], rest)
    rw [show escJsonStr [] ++ '"' :: rest = '"' :: rest from rfl]
    rw [parseJStr.eq_def]
    simp
  | cons c t ih =>
    rw [escJsonStr_cons, List.append_assoc]
    by_cases h1 : c = '"'
    · subst h1
      rw [show escJsonChar '"' = ['\\', '"'] from rfl]
      rw [show ['\\', '"'] ++ (escJsonStr t ++ '"' :: rest)
          = '\\' :: '"' :: (escJsonStr t ++ '"' :: rest) from rfl]
      exact parseJStr_escaped_literal '"' '"' t rest (by simp) ih
    · by_cases h2 : c = '\\'
      · subst h2
        rw [show escJsonChar '\\' = ['\\', '\\'] from rfl]
        rw [show ['\\', '\\'] ++ (escJsonStr t ++ '"' :: rest)
            = '\\' :: '\\' :: (escJsonStr t ++ '"' :: rest) from rfl]
        exact parseJStr_escaped_literal '\\' '\\' t rest (by simp) ih
      · by_cases h3 : c = '\x08'
        · subst h3
          rw [show escJsonChar '\x08' = ['\\', 'b'] from rfl]
          rw [show ['\\', 'b'] ++ (escJsonStr t ++ '"' :: rest)
              = '\\' :: 'b' :: (escJsonStr t ++ '"' :: rest) from rfl]
          exact parseJStr_escaped_literal 'b' '\x08' t rest (by simp) ih
        · by_cases h4 : c = '\x0c'
          · subst h4
            rw [show escJsonChar '\x0c' = ['\\', 'f'] from rfl]
            rw [show ['\\', 'f'] ++ (escJsonStr t ++ '"' :: rest)
                = '\\' :: 'f' :: (escJsonStr t ++ '"' :: rest) from rfl]
            exact parseJStr_escaped_literal 'f' '\x0c' t rest (by simp) ih
          · by_cases h5 : c = '\n'
            · subst h5
              rw [show escJsonChar '\n' = ['\\', 'n'] from rfl]
              rw [show ['\\', 'n'] ++ (escJsonStr t ++ '"' :: rest)
                  = '\\' :: 'n' :: (escJsonStr t ++ '"' :: rest) from rfl]
              exact parseJStr_escaped_literal 'n' '\n' t rest (by simp) ih
            · by_cases h6 : c = '\r'
              · subst h6
                rw [show escJsonChar '\r' = ['\\', 'r'] from rfl]
                rw [show ['\\', 'r'] ++ (escJsonStr t ++ '"' :: rest)
                    = '\\' :: 'r' :: (escJsonStr t ++ '"' :: rest) from rfl]
                exact parseJStr_escaped_literal 'r' '\r' t rest (by simp) ih
              · by_cases h7 : c = '\t'
                · subst h7
                  rw [show escJsonChar '\t' = ['\\', 't'] from rfl]
                  rw [show ['\\', 't'] ++ (escJsonStr t ++ '"' :: rest)
                      = '\\' :: 't' :: (escJsonStr t ++ '"' :: rest) from rfl]
                  exact parseJStr_escaped_literal 't' '\t' t rest (by simp) ih
                · by_cases h8 : c.toNat < 32
                  · rw [escJsonChar]
                    rw [if_neg h1, if_neg h2, if_neg h3, if_neg h4, if_neg h5,
                      if_neg h6, if_neg h7, if_pos h8]
                    have hhi : c.toNat / 16 < 16 := by omega
                    have hlo : c.toNat % 16 < 16 := by omega
                    rw [show S "\\u00" ++ [hexCh (c.toNat / 16), hexCh (c.toNat % 16)]
                          ++ (escJsonStr t ++ '"' :: rest)
                        = '\\' :: 'u' :: '0' :: '0' :: hexCh (c.toNat / 16)
                          :: hexCh (c.toNat % 16) :: (escJsonStr t ++ '"' :: rest) from rfl]
                    rw [parseJStr.eq_def]
                    simp only [reduceIte, reduceCtorEq]
                    rw [isHexLow_hexCh _ hhi, isHexLow_hexCh _ hlo]
                    simp only [Bool.and_true, Bool.true_and, if_true, reduceIte]
                    rw [hexVal_hexCh _ hhi, hexVal_hexCh _ hlo]
                    rw [ih]
                    have hval : ∀ a b : Nat, a = c.toNat / 16 → b = c.toNat % 16 →
                        ((hexVal '0' * 16 + hexVal '0') * 16 + a) * 16 + b = c.toNat := by
                      intro a b ha hb
                      subst ha
                      subst hb
                      show ((0 * 16 + 0) * 16 + c.toNat / 16) * 16 + c.toNat % 16 = c.toNat
                      omega
                    rw [hval _ _ rfl rfl, Char.ofNat_toNat]
                    rfl
                  · rw [escJsonChar]
                    rw [if_neg h1, if_neg h2, if_neg h3, if_neg h4, if_neg h5,
                      if_neg h6, if_neg h7, if_neg h8]
                    rw [show [c] ++ (escJsonStr t ++ '"' :: rest)
                        = c :: (escJsonStr t ++ '"' :: rest) from by simp]
                    rw [parseJStr.eq_def]
                    simp [h1, h2, ih]

theorem parseDigitsAcc_scan :
    ∀ (ds : List Char) (acc : Nat) (rest : List Char),
      (∀ c ∈ ds, isDigitCh c = true) → isDigitCh (rest.headD 'x') = false →
      parseDigitsAcc acc (ds ++ rest)
        = (ds.foldl (fun a c => a * 10 + dVal c) acc, rest) := by
  intro ds
  induction ds with
  | nil =>
    intro acc rest _ hrest
    cases rest with
    | nil => rfl
    | cons c t =>
      show parseDigitsAcc acc (c :: t) = (acc, c :: t)
      rw [parseDigitsAcc, if_neg (by simp_all)]
  | cons d ds' ih =>
    intro acc rest hds hrest
    show parseDigitsAcc acc (d :: (ds' ++ rest)) = _
    rw [parseDigitsAcc, if_pos (hds d (by simp))]
    rw [ih _ rest (fun c hc => hds c (by simp [hc])) hrest]
    rfl

theorem parseDigits_natToStr (n : Nat) (rest : List Char)
    (hrest : isDigitCh (rest.headD 'x') = false) :
    parseDigitsAcc 0 (natToStr n ++ rest) = (n, rest) := by
  rw [parseDigitsAcc_scan (natToStr n) 0 rest (natToStr_all_digits n) hrest]
  rw [show (natToStr n).foldl (fun a c => a * 10 + dVal c) 0 = digitsVal (natToStr n) from rfl]
  rw [digitsVal_natToStr]

theorem startsWith_self_append : ∀ (p r : List Char), startsWith p (p ++ r) = true := by
  intro p
  induction p with
  | nil => intro r; rfl
  | cons c t ih => intro r; simp [startsWith, ih]

theorem startsWith_lit_ne (p c : Char) (ps X : List Char) (h : p ≠ c) :
    startsWith (p :: ps) (c :: X) = false := by
  simp [startsWith, h]

theorem stringify_head (j : Json) :
    ∃ c cs, jsonStringify j = c :: cs ∧ isJsonHead c = true := by
  cases j with
  | null => exact ⟨'n', _, rfl, by decide⟩
  | bool b => cases b with
    | true => exact ⟨'t', _, rfl, by decide⟩
    | false => exact ⟨'f', _, rfl, by decide⟩
  | num i =>
    show ∃ c cs, intToStr i = c :: cs ∧ isJsonHead c = true
    rw [intToStr]
    by_cases hneg : i < 0
    · rw [if_pos hneg]
      exact ⟨'-', _, rfl, by decide⟩
    · rw [if_neg hneg]
      rcases hcons : natToStr i.natAbs with - | ⟨c, cs⟩
      · exact absurd hcons (natToStr_ne_nil _)
      · refine ⟨c, cs, rfl, ?_⟩
        have hd : isDigitCh c = true := natToStr_all_digits _ c (by rw [hcons]; simp)
        simp [isJsonHead, hd]
  | str s => exact ⟨'"', _, rfl, by decide⟩
  | arr es => exact ⟨'[', _, rfl, by decide⟩
  | obj fs => exact ⟨obraceCh, _, rfl, by decide⟩

theorem isJsonHead_ne (c d : Char) (hc : isJsonHead c = true) (hd : isJsonHead d = false) :
    ¬ c = d := by
  intro h
  subst h
  rw [hc] at hd
  cases hd

theorem bfalse (b : Bool) (h : b = false) : ¬ b = true := by simp [h]

theorem jsonSize_pos : ∀ j : Json, 0 < jsonSize j := by
  intro j
  cases j <;> simp [jsonSize]

theorem jsonListSize_pos : ∀ es : JsonList, 0 < jsonListSize es := by
  intro es
  cases es <;> simp [jsonListSize]

theorem jsonFieldsSize_pos : ∀ fs : JsonFields, 0 < jsonFieldsSize fs := by
  intro fs
  cases fs <;> simp [jsonFieldsSize]

theorem digit_ne (c x : Char) (hc : isDigitCh c = true) (hx : isDigitCh x = false) :
    ¬ c = x := by
  intro h
  subst h
  rw [hc] at hx
  cases hx

def numSafe (j : Json) (rest : List Char) : Bool :=
  match j with
  | .num _ => !isDigitCh (rest.headD 'x')
  | _ => true

theorem numSafe_of_head (j : Json) (c : Char) (X : List Char)
    (h : isDigitCh c = false) : numSafe j (c :: X) = true := by
  cases j <;> simp [numSafe, h]

theorem parse_null (f : Nat) (rest : List Char) :
    parseJsonF (f + 1) (jsonStringify .null ++ rest) = some (.null, rest) := by
  rw [show jsonStringify .null ++ rest = S "null" ++ rest from rfl]
  rw [parseJsonF]
  rw [if_pos (startsWith_self_append (S "null") rest)]
  rw [show (S "null" ++ rest).drop 4 = rest from
    by rw [show (4 : Nat) = (S "null").length from rfl, List.drop_left]]

theorem parse_bool (f : Nat) (b : Bool) (rest : List Char) :
    parseJsonF (f + 1) (jsonStringify (.bool b) ++ rest) = some (.bool b, rest) := by
  cases b
  · rw [show jsonStringify (.bool false) ++ rest
        = 'f' :: (['a','l','s','e'] ++ rest) from rfl]
    rw [parseJsonF]
    have h1 : startsWith (S "null") ('f' :: (['a','l','s','e'] ++ rest)) = false := by
      rw [show S "null" = ['n','u','l','l'] from rfl]
      simp [startsWith]
    have h2 : startsWith (S "true") ('f' :: (['a','l','s','e'] ++ rest)) = false := by
      rw [show S "true" = ['t','r','u','e'] from rfl]
      simp [startsWith]
    have h3 : startsWith (S "false") ('f' :: (['a','l','s','e'] ++ rest)) = true := by
      rw [show ('f' :: (['a','l','s','e'] ++ rest) : List Char) = S "false" ++ rest from rfl]
      exact startsWith_self_append _ _
    rw [if_neg (bfalse _ h1), if_neg (bfalse _ h2), if_pos h3]
    rw [show ('f' :: (['a','l','s','e'] ++ rest) : List Char).drop 5 = rest from by
      rw [show ('f' :: (['a','l','s','e'] ++ rest) : List Char) = S "false" ++ rest from rfl,
        show (5 : Nat) = (S "false").length from rfl, List.drop_left]]
  · rw [show jsonStringify (.bool true) ++ rest = 't' :: (['r','u','e'] ++ rest) from rfl]
    rw [parseJsonF]
    have h1 : startsWith (S "null") ('t' :: (['r','u','e'] ++ rest)) = false := by
      rw [show S "null" = ['n','u','l','l'] from rfl]
      simp [startsWith]
    have h2 : startsWith (S "true") ('t' :: (['r','u','e'] ++ rest)) = true := by
      rw [show ('t' :: (['r','u','e'] ++ rest) : List Char) = S "true" ++ rest from rfl]
      exact startsWith_self_append _ _
    rw [if_neg (bfalse _ h1), if_pos h2]
    rw [show ('t' :: (['r','u','e'] ++ rest) : List Char).drop 4 = rest from by
      rw [show ('t' :: (['r','u','e'] ++ rest) : List Char) = S "true" ++ rest from rfl,
        show (4 : Nat) = (S "true").length from rfl, List.drop_left]]

theorem parse_str (f : Nat) (s rest : List Char) :
    parseJsonF (f + 1) (jsonStringify (.str s) ++ rest) = some (.str s, rest) := by
  have hsh : jsonStringify (.str s) ++ rest = '"' :: (escJsonStr s ++ '"' :: rest) := by
    rw [show jsonStringify (.str s) = S "\"" ++ escJsonStr s ++ S "\"" from rfl]
    rw [show S "\"" = ['"'] from rfl]
    simp [List.append_assoc]
  rw [hsh, parseJsonF]
  have h1 : startsWith (S "null") ('"' :: (escJsonStr s ++ '"' :: rest)) = false := by
    rw [show S "null" = ['n','u','l','l'] from rfl]
    simp [startsWith]
  have h2 : startsWith (S "true") ('"' :: (escJsonStr s ++ '"' :: rest)) = false := by
    rw [show S "true" = ['t','r','u','e'] from rfl]
    simp [startsWith]
  have h3 : startsWith (S "false") ('"' :: (escJsonStr s ++ '"' :: rest)) = false := by
    rw [show S "false" = ['f','a','l','s','e'] from rfl]
    simp [startsWith]
  rw [if_neg (bfalse _ h1), if_neg (bfalse _ h2), if_neg (bfalse _ h3)]
  rw [if_pos (show ('"' :: (escJsonStr s ++ '"' :: rest)).headD ' ' = '"' from rfl)]
  rw [show ('"' :: (escJsonStr s ++ '"' :: rest)).drop 1 = escJsonStr s ++ '"' :: rest
    from rfl]
  rw [parseJStr_esc]
  rfl

theorem parse_num (f : Nat) (i : Int) (rest : List Char)
    (hrest : isDigitCh (rest.headD 'x') = false) :
    parseJsonF (f + 1) (jsonStringify (.num i) ++ rest) = some (.num i, rest) := by
  rw [show jsonStringify (.num i) = intToStr i from rfl, intToStr]
  rcases hcons : natToStr i.natAbs with - | ⟨c, cs⟩
  · exact absurd hcons (natToStr_ne_nil _)
  have hdig : isDigitCh c = true := natToStr_all_digits _ c (by rw [hcons]; simp)
  by_cases hneg : i < 0
  · rw [if_pos hneg]
    rw [show ('-' :: c :: cs) ++ rest = '-' :: ((c :: cs) ++ rest) from rfl]
    rw [parseJsonF]
    have h1 : startsWith (S "null") ('-' :: ((c :: cs) ++ rest)) = false := by
      rw [show S "null" = ['n','u','l','l'] from rfl]
      simp [startsWith]
    have h2 : startsWith (S "true") ('-' :: ((c :: cs) ++ rest)) = false := by
      rw [show S "true" = ['t','r','u','e'] from rfl]
      simp [startsWith]
    have h3 : startsWith (S "false") ('-' :: ((c :: cs) ++ rest)) = false := by
      rw [show S "false" = ['f','a','l','s','e'] from rfl]
      simp [startsWith]
    rw [if_neg (bfalse _ h1), if_neg (bfalse _ h2), if_neg (bfalse _ h3)]
    rw [show ('-' :: ((c :: cs) ++ rest)).headD ' ' = '-' from rfl]
    rw [if_neg (show ¬('-' : Char) = '"' by decide),
      if_neg (show ¬('-' : Char) = '[' by decide),
      if_neg (show ¬('-' : Char) = obraceCh by decide),
      if_pos (show ('-' : Char) = '-' from rfl)]
    rw [show ('-' :: ((c :: cs) ++ rest)).drop 1 = (c :: cs) ++ rest from rfl]
    rw [show ((c :: cs) ++ rest).headD 'x' = c from rfl, if_pos hdig]
    rw [show ((c :: cs) : List Char) = natToStr i.natAbs from hcons.symm]
    rw [parseDigits_natToStr _ _ hrest]
    have hval : -((i.natAbs : Nat) : Int) = i := by omega
    rw [hval]
  · rw [if_neg hneg]
    rw [show (c :: cs) ++ rest = c :: (cs ++ rest) from rfl]
    rw [parseJsonF]
    have h1 : startsWith (S "null") (c :: (cs ++ rest)) = false := by
      rw [show S "null" = ['n','u','l','l'] from rfl]
      exact startsWith_lit_ne 'n' c _ _ (Ne.symm (digit_ne c 'n' hdig (by decide)))
    have h2 : startsWith (S "true") (c :: (cs ++ rest)) = false := by
      rw [show S "true" = ['t','r','u','e'] from rfl]
      exact startsWith_lit_ne 't' c _ _ (Ne.symm (digit_ne c 't' hdig (by decide)))
    have h3 : startsWith (S "false") (c :: (cs ++ rest)) = false := by
      rw [show S "false" = ['f','a','l','s','e'] from rfl]
      exact startsWith_lit_ne 'f' c _ _ (Ne.symm (digit_ne c 'f' hdig (by decide)))
    rw [if_neg (bfalse _ h1), if_neg (bfalse _ h2), if_neg (bfalse _ h3)]
    rw [show (c :: (cs ++ rest)).headD ' ' = c from rfl]
    rw [if_neg (digit_ne c '"' hdig (by decide)),
      if_neg (digit_ne c '[' hdig (by decide)),
      if_neg (digit_ne c obraceCh hdig (by decide)),
      if_neg (digit_ne c '-' hdig (by decide))]
    rw [show (c :: (cs ++ rest)).headD 'x' = c from rfl, if_pos hdig]
    rw [show c :: (cs ++ rest) = (c :: cs) ++ rest from rfl]
    rw [show ((c :: cs) : List Char) = natToStr i.natAbs from hcons.symm]
    rw [parseDigits_natToStr _ _ hrest]
    have hval : ((i.natAbs : Nat) : Int) = i := by omega
    rw [hval]

theorem parse_rt_all (fuel : Nat) :
    (∀ (j : Json) (rest : List Char), jsonSize j ≤ fuel → numSafe j rest = true →
      parseJsonF fuel (jsonStringify j ++ rest) = some (j, rest)) ∧
    (∀ (x : Json) (t : JsonList) (rest : List Char), jsonListSize (.cons x t) ≤ fuel →
      parseItemsF fuel (jsonListStringify (.cons x t) ++ ']' :: rest)
        = some (.cons x t, rest)) ∧
    (∀ (k : List Char) (v : Json) (t : JsonFields) (rest : List Char),
      jsonFieldsSize (.cons k v t) ≤ fuel →
      parseFieldsF fuel (jsonFieldsStringify (.cons k v t) ++ cbraceCh :: rest)
        = some (.cons k v t, rest)) := by
  induction fuel with
  | zero =>
    refine ⟨fun j rest h _ => absurd h (by have := jsonSize_pos j; omega),
      fun x t rest h => absurd h (by simp [jsonListSize]),
      fun k v t rest h => absurd h (by simp [jsonFieldsSize])⟩
  | succ f ih =>
    obtain ⟨ihJ, ihI, ihF⟩ := ih
    refine ⟨?_, ?_, ?_⟩
    · intro j rest hsz hsafe
      cases j with
      | null => exact parse_null f rest
      | bool b => exact parse_bool f b rest
      | num i => exact parse_num f i rest (by simpa [numSafe] using hsafe)
      | str s => exact parse_str f s rest
      | arr es =>
        have hsh : jsonStringify (.arr es) ++ rest
            = '[' :: (jsonListStringify es ++ ']' :: rest) := by
          rw [show jsonStringify (.arr es)
              = S "[" ++ jsonListStringify es ++ S "]" from rfl]
          rw [show S "[" = ['['] from rfl, show S "]" = [']'] from rfl]
          simp [List.append_assoc]
        rw [hsh, parseJsonF]
        have h1 : startsWith (S "null")
            ('[' :: (jsonListStringify es ++ ']' :: rest)) = false := by
          rw [show S "null" = ['n','u','l','l'] from rfl]
          simp [startsWith]
        have h2 : startsWith (S "true")
            ('[' :: (jsonListStringify es ++ ']' :: rest)) = false := by
          rw [show S "true" = ['t','r','u','e'] from rfl]
          simp [startsWith]
        have h3 : startsWith (S "false")
            ('[' :: (jsonListStringify es ++ ']' :: rest)) = false := by
          rw [show S "false" = ['f','a','l','s','e'] from rfl]
          simp [startsWith]
        rw [if_neg (bfalse _ h1), if_neg (bfalse _ h2), if_neg (bfalse _ h3)]
        rw [show ('[' :: (jsonListStringify es ++ ']' :: rest)).headD ' ' = '[' from rfl]
        rw [if_neg (show ¬('[' : Char) = '"' by decide),
          if_pos (show ('[' : Char) = '[' from rfl)]
        rw [show ('[' :: (jsonListStringify es ++ ']' :: rest)).drop 1
            = jsonListStringify es ++ ']' :: rest from rfl]
        cases es with
        | nil =>
          have hf : 1 ≤ f := by simp [jsonSize, jsonListSize] at hsz; omega
          rcases f with - | f'
          · omega
          rw [show jsonListStringify .nil ++ ']' :: rest = ']' :: rest from rfl]
          rw [parseItemsF]
          rw [if_pos (show ((']' :: rest).headD ' ') = ']' from rfl)]
          rfl
        | cons x t =>
          rw [ihI x t rest (by simp [jsonSize] at hsz; omega)]
          rfl
      | obj fs =>
        have hsh : jsonStringify (.obj fs) ++ rest
            = obraceCh :: (jsonFieldsStringify fs ++ cbraceCh :: rest) := by
          rw [show jsonStringify (.obj fs)
              = S "\x7b" ++ jsonFieldsStringify fs ++ S "\x7d" from rfl]
          rw [show S "\x7b" = [obraceCh] from rfl, show S "\x7d" = [cbraceCh] from rfl]
          simp [List.append_assoc]
        rw [hsh, parseJsonF]
        have h1 : startsWith (S "null")
            (obraceCh :: (jsonFieldsStringify fs ++ cbraceCh :: rest)) = false := by
          rw [show S "null" = ['n','u','l','l'] from rfl]
          exact startsWith_lit_ne 'n' obraceCh _ _ (by decide)
        have h2 : startsWith (S "true")
            (obraceCh :: (jsonFieldsStringify fs ++ cbraceCh :: rest)) = false := by
          rw [show S "true" = ['t','r','u','e'] from rfl]
          exact startsWith_lit_ne 't' obraceCh _ _ (by decide)
        have h3 : startsWith (S "false")
            (obraceCh :: (jsonFieldsStringify fs ++ cbraceCh :: rest)) = false := by
          rw [show S "false" = ['f','a','l','s','e'] from rfl]
          exact startsWith_lit_ne 'f' obraceCh _ _ (by decide)
        rw [if_neg (bfalse _ h1), if_neg (bfalse _ h2), if_neg (bfalse _ h3)]
        rw [show (obraceCh :: (jsonFieldsStringify fs ++ cbraceCh :: rest)).headD ' '
            = obraceCh from rfl]
        rw [if_neg (show ¬obraceCh = '"' by decide),
          if_neg (show ¬obraceCh = '[' by decide),
          if_pos (show obraceCh = obraceCh from rfl)]
        rw [show (obraceCh :: (jsonFieldsStringify fs ++ cbraceCh :: rest)).drop 1
            = jsonFieldsStringify fs ++ cbraceCh :: rest from rfl]
        cases fs with
        | nil =>
          have hf : 1 ≤ f := by simp [jsonSize, jsonFieldsSize] at hsz; omega
          rcases f with - | f'
          · omega
          rw [show jsonFieldsStringify .nil ++ cbraceCh :: rest = cbraceCh :: rest from rfl]
          rw [parseFieldsF]
          rw [if_pos (show ((cbraceCh :: rest).headD ' ') = cbraceCh from rfl)]
          rfl
        | cons k v t =>
          rw [ihF k v t rest (by simp [jsonSize] at hsz; omega)]
          rfl
    · intro x t rest hsz
      obtain ⟨c, cs, hcons, hhead⟩ := stringify_head x
      have hpx := jsonSize_pos x
      have hszx : jsonSize x ≤ f := by
        simp [jsonListSize] at hsz
        have := jsonListSize_pos t
        omega
      cases t with
      | nil =>
        rw [show jsonListStringify (.cons x .nil) = jsonStringify x from rfl]
        rw [parseItemsF]
        have hne : ¬((jsonStringify x ++ ']' :: rest).headD ' ' = ']') := by
          rw [hcons]
          rw [show ((c :: cs) ++ ']' :: rest).headD ' ' = c from rfl]
          exact isJsonHead_ne c ']' hhead (by decide)
        rw [if_neg hne]
        rw [ihJ x (']' :: rest) hszx (numSafe_of_head x ']' rest (by decide))]
        simp
      | cons y t' =>
        rw [show jsonListStringify (.cons x (.cons y t'))
            = jsonStringify x ++ S "," ++ jsonListStringify (.cons y t') from rfl]
        rw [show S "," = [','] from rfl]
        simp only [List.append_assoc, List.cons_append, List.nil_append]
        rw [parseItemsF]
        have hne : ¬((jsonStringify x
            ++ ',' :: (jsonListStringify (.cons y t') ++ ']' :: rest)).headD ' ' = ']') := by
          rw [hcons]
          rw [show ((c :: cs)
              ++ ',' :: (jsonListStringify (.cons y t') ++ ']' :: rest)).headD ' '
              = c from rfl]
          exact isJsonHead_ne c ']' hhead (by decide)
        rw [if_neg hne]
        rw [ihJ x (',' :: (jsonListStringify (.cons y t') ++ ']' :: rest)) hszx
          (numSafe_of_head x ',' _ (by decide))]
        have hrec := ihI y t' rest (by
          simp [jsonListSize] at hsz ⊢
          omega)
        simp [hrec]
    · intro k v t rest hsz
      have hpv := jsonSize_pos v
      have hszv : jsonSize v ≤ f := by
        simp [jsonFieldsSize] at hsz
        have := jsonFieldsSize_pos t
        omega
      cases t with
      | nil =>
        have hsh : jsonFieldsStringify (.cons k v .nil) ++ cbraceCh :: rest
            = '"' :: (escJsonStr k ++ '"' :: (':' :: (jsonStringify v ++ cbraceCh :: rest))) := by
          rw [show jsonFieldsStringify (.cons k v .nil)
              = S "\"" ++ escJsonStr k ++ S "\":" ++ jsonStringify v from rfl]
          rw [show S "\"" = ['"'] from rfl, show S "\":" = ['"', ':'] from rfl]
          simp [List.append_assoc]
        rw [hsh, parseFieldsF]
        rw [if_neg (show ¬(('"' :: (escJsonStr k ++ '"' :: (':' :: (jsonStringify v
            ++ cbraceCh :: rest)))).headD ' ' = cbraceCh)
          from fun h => (by decide : ¬('"' : Char) = cbraceCh) h)]
        rw [if_pos (show (('"' :: (escJsonStr k ++ '"' :: (':' :: (jsonStringify v
            ++ cbraceCh :: rest)))).headD ' ' = '"') from rfl)]
        rw [show ('"' :: (escJsonStr k ++ '"' :: (':' :: (jsonStringify v
            ++ cbraceCh :: rest)))).drop 1
            = escJsonStr k ++ '"' :: (':' :: (jsonStringify v ++ cbraceCh :: rest)) from rfl]
        rw [parseJStr_esc]
        have hv := ihJ v (cbraceCh :: rest) hszv (numSafe_of_head v cbraceCh rest (by decide))
        simp +decide [hv]
      | cons k2 v2 t' =>
        have hsh : jsonFieldsStringify (.cons k v (.cons k2 v2 t')) ++ cbraceCh :: rest
            = '"' :: (escJsonStr k ++ '"' :: (':' :: (jsonStringify v
              ++ ',' :: (jsonFieldsStringify (.cons k2 v2 t') ++ cbraceCh :: rest)))) := by
          rw [show jsonFieldsStringify (.cons k v (.cons k2 v2 t'))
              = S "\"" ++ escJsonStr k ++ S "\":" ++ jsonStringify v ++ S ","
                ++ jsonFieldsStringify (.cons k2 v2 t') from rfl]
          rw [show S "\"" = ['"'] from rfl, show S "\":" = ['"', ':'] from rfl,
            show S "," = [','] from rfl]
          simp [List.append_assoc]
        rw [hsh, parseFieldsF]
        rw [if_neg (show ¬(('"' :: (escJsonStr k ++ '"' :: (':' :: (jsonStringify v
            ++ ',' :: (jsonFieldsStringify (.cons k2 v2 t')
              ++ cbraceCh :: rest))))).headD ' ' = cbraceCh)
          from fun h => (by decide : ¬('"' : Char) = cbraceCh) h)]
        rw [if_pos (show (('"' :: (escJsonStr k ++ '"' :: (':' :: (jsonStringify v
            ++ ',' :: (jsonFieldsStringify (.cons k2 v2 t')
              ++ cbraceCh :: rest))))).headD ' ' = '"') from rfl)]
        rw [show ('"' :: (escJsonStr k ++ '"' :: (':' :: (jsonStringify v
            ++ ',' :: (jsonFieldsStringify (.cons k2 v2 t') ++ cbraceCh :: rest))))).drop 1
            = escJsonStr k ++ '"' :: (':' :: (jsonStringify v
              ++ ',' :: (jsonFieldsStringify (.cons k2 v2 t') ++ cbraceCh :: rest))) from rfl]
        rw [parseJStr_esc]
        have hv := ihJ v (',' :: (jsonFieldsStringify (.cons k2 v2 t') ++ cbraceCh :: rest))
          hszv (numSafe_of_head v ',' _ (by decide))
        have hrec := ihF k2 v2 t' rest (by
          simp [jsonFieldsSize] at hsz ⊢
          omega)
        simp +decide [hv, hrec]

theorem numSafe_nil (j : Json) : numSafe j [] = true := by
  have hx : isDigitCh 'x' = false := by decide
  cases j <;> simp [numSafe, hx]

/-- C5: rendering a row value into an INSERT literal is lossless. Strings
are quoted with embedded single quotes doubled then backslashes doubled,
and undoing the two doublings recovers the string exactly; objects are
JSON-serialised with quotes doubled and cast `::jsonb`, undoing the
doubling gives back the JSON text and reading that text back yields the
original tree; booleans render as the bare literals `true`/`false`; dates
render as the quoted ISO-8601 string, from which the date's fields are
recovered exactly; null and undefined render as the SQL `NULL` literal,
which is not the empty string. -/
theorem C5_insert_literal_lossless (s : List Char) (j : Json) (b : Bool) (d : JSDate)
    (hd : d.valid) :
    (renderSQLValue (.str s) = '\'' :: (sqlEscapeString s ++ ['\''])
      ∧ sqlUnescapeString (sqlEscapeString s) = s) ∧
    (renderSQLValue (.obj j) = '\'' :: (doubleCh '\'' (jsonStringify j) ++ S "'::jsonb")
      ∧ undoubleCh '\'' (doubleCh '\'' (jsonStringify j)) = jsonStringify j
      ∧ parseJsonF (jsonSize j) (jsonStringify j) = some (j, [])) ∧
    (renderSQLValue (.bool b) = (if b then S "true" else S "false")
      ∧ S "true" ≠ S "false") ∧
    (renderSQLValue (.date d) = '\'' :: (d.toISOString ++ ['\''])
      ∧ parseISO d.toISOString = some d) ∧
    (renderSQLValue .null = S "NULL" ∧ renderSQLValue .undef = S "NULL"
      ∧ renderSQLValue .null ≠ []) := by
  refine ⟨⟨rfl, sqlUnescape_sqlEscape s⟩,
    ⟨rfl, undoubleCh_doubleCh '\'' (jsonStringify j), ?_⟩,
    ⟨by cases b <;> rfl, by decide⟩,
    ⟨?_, parseISO_toISOString d hd⟩,
    ⟨rfl, rfl, by decide⟩⟩
  · have h := (parse_rt_all (jsonSize j)).1 j [] le_rfl (numSafe_nil j)
    rwa [List.append_nil] at h
  · rw [show renderSQLValue (.date d) = S "'" ++ d.toISOString ++ S "'" from rfl,
      show S "'" = ['\''] from rfl]
    simp [List.append_assoc]

/-- C5 (witness): the losslessness facts at a concrete string, object,
boolean and date. -/
theorem C5_insert_literal_lossless_witness :
    (⟨2024, 6, 15, 12, 30, 45, 123⟩ : JSDate).valid ∧
    ((renderSQLValue (.str (S "a'b\\c"))
        = '\'' :: (sqlEscapeString (S "a'b\\c") ++ ['\''])
      ∧ sqlUnescapeString (sqlEscapeString (S "a'b\\c")) = S "a'b\\c") ∧
    (renderSQLValue (JSVal.obj (Json.obj (JsonFields.cons (S "k") (Json.num 7) JsonFields.nil)))
        = '\'' :: (doubleCh '\'' (jsonStringify (Json.obj (JsonFields.cons (S "k") (Json.num 7) JsonFields.nil)))
          ++ S "'::jsonb")
      ∧ undoubleCh '\'' (doubleCh '\'' (jsonStringify (Json.obj (JsonFields.cons (S "k") (Json.num 7) JsonFields.nil))))
        = jsonStringify (Json.obj (JsonFields.cons (S "k") (Json.num 7) JsonFields.nil))
      ∧ parseJsonF (jsonSize (Json.obj (JsonFields.cons (S "k") (Json.num 7) JsonFields.nil)))
          (jsonStringify (Json.obj (JsonFields.cons (S "k") (Json.num 7) JsonFields.nil)))
        = some (Json.obj (JsonFields.cons (S "k") (Json.num 7) JsonFields.nil), [])) ∧
    (renderSQLValue (.bool true) = (if true then S "true" else S "false")
      ∧ S "true" ≠ S "false") ∧
    (renderSQLValue (.date ⟨2024, 6, 15, 12, 30, 45, 123⟩)
        = '\'' :: ((⟨2024, 6, 15, 12, 30, 45, 123⟩ : JSDate).toISOString ++ ['\''])
      ∧ parseISO (⟨2024, 6, 15, 12, 30, 45, 123⟩ : JSDate).toISOString
        = some ⟨2024, 6, 15, 12, 30, 45, 123⟩) ∧
    (renderSQLValue .null = S "NULL" ∧ renderSQLValue .undef = S "NULL"
      ∧ renderSQLValue .null ≠ [])) :=
  ⟨by decide,
    C5_insert_literal_lossless (S "a'b\\c")
      (Json.obj (JsonFields.cons (S "k") (Json.num 7) JsonFields.nil)) true
      ⟨2024, 6, 15, 12, 30, 45, 123⟩ (by decide)⟩
